import Mathlib

/-!
# Gunslinger matching system — verification development

Shallow embedding of the gunslinger tournament matching system
(Google Apps Script over three spreadsheet "ledgers": players,
match history, in-progress tables) and proofs of the stated
properties of its matching engine, state-transition manager and
statistics maintenance.

Modelling conventions:
* A sheet's data rows (everything below the header row) are a `List`
  of typed records; column headers become record fields.
* JS `Map`/`Set` values are modelled as functions to `List`s /
  duplicate-free `List`s; all uses in the source are membership tests
  and size queries, which agree with this representation.
* Spreadsheet cells written with a formatted date string are read back
  by the Sheets runtime as `Date` values; we model timestamps as
  `Option Int` (milliseconds; `none` = empty / non-date cell).
* Empty string and the number 0 are the JS-falsy cell contents
  relevant to the source's truthiness tests.
* The script lock (`acquireLock`/`releaseLock`) serialises every run,
  so each operation is modelled as a pure state transition; sheets are
  assumed present and structurally valid (a missing sheet makes every
  operation abort before its first write, which only strengthens the
  failure-atomicity results proved below).
-/

namespace Gunslinger

/-- Player participation status (`PLAYER_STATUS` in `constants.js`,
which is not part of the sources; the four statuses are taken from the
code's uses: 待機 / 対戦中 / 休憩 / 終了). -/
inductive Status where
  | waiting
  | inProgress
  | resting
  | dropped
deriving DecidableEq, Repr

/-- One data row of the player sheet (プレイヤーID, プレイヤー名, 勝数,
敗数, 試合数, 参加状況, 最終対戦時刻). -/
structure PlayerRow where
  id : String
  name : String
  wins : Int
  losses : Int
  played : Int
  status : Status
  lastMatch : Option Int := none
deriving DecidableEq, Repr

/-- One data row of the match-history sheet (対戦ID, 卓番号, ID1(勝者),
勝者名, ID2(敗者), 敗者名, 対戦終了時刻, 対戦時間). -/
structure HistRow where
  matchId : String := ""
  tableNumber : Int := 0
  id1 : String := ""
  winnerName : String := ""
  id2 : String := ""
  loserName : String := ""
  endedAt : String := ""
  duration : String := ""
deriving DecidableEq, Repr

/-- One data row of the in-progress matches sheet (卓番号, ID1,
プレイヤー1, ID2, プレイヤー2, 対戦開始時刻, 経過時間).
An empty 卓番号 cell is modelled as `0` (both are JS-falsy). -/
structure TableRow where
  tableNumber : Int := 0
  id1 : String := ""
  name1 : String := ""
  id2 : String := ""
  name2 : String := ""
  startedAt : Option Int := none
  elapsed : String := ""
deriving DecidableEq, Repr

/-- The whole spreadsheet state plus the two document properties the
core reads (`MAX_TABLES`, `MAINTENANCE_MODE`). -/
structure State where
  players : List PlayerRow
  history : List HistRow
  inProgress : List TableRow
  maxTables : Nat
  maintenance : Bool := false
deriving DecidableEq, Repr

/-- `TABLE_CONFIG.MIN_TABLE_NUMBER`. Modelled from the spec:
`constants.js` is not among the sources; the spec fixes the valid
table range as [1, maxTables]. -/
def MIN_TABLE_NUMBER : Int := 1

-- =====================================================================
-- Small JS-semantics helpers
-- =====================================================================

/-- JS `Set.add`: insert without duplicating (membership/size model). -/
def insertSet (x : Int) (s : List Int) : List Int :=
  if x ∈ s then s else s ++ [x]

/-- `Array.prototype.findIndex` followed by `splice(i, 1)`: remove the
first element satisfying `p`, returning it and the remainder. -/
def extractFirst (p : α → Bool) : List α → Option (α × List α)
  | [] => none
  | x :: xs =>
    if p x then some (x, xs)
    else (extractFirst p xs).map (fun r => (r.1, x :: r.2))

theorem extractFirst_length {p : α → Bool} :
    ∀ {l : List α} {x : α} {xs : List α},
      extractFirst p l = some (x, xs) → xs.length + 1 = l.length := by
  intro l
  induction l with
  | nil => intro x xs h; simp [extractFirst] at h
  | cons a as ih =>
    intro x xs h
    by_cases hp : p a
    · simp [extractFirst, hp] at h
      simp [← h.2]
    · rcases hext : extractFirst p as with _ | ⟨y, ys⟩
      · simp [extractFirst, hp, hext] at h
      · simp [extractFirst, hp, hext] at h
        have hlen := ih hext
        simp [← h.2]
        omega

/-- Stable insertion of `x` into `l` under a JS comparator `c`
(`c x y < 0` means `x` sorts strictly before `y`). -/
def insertCmp (c : α → α → Int) (x : α) : List α → List α
  | [] => [x]
  | y :: ys => if c x y < 0 then x :: y :: ys else y :: insertCmp c x ys

/-- JS `Array.prototype.sort` with comparator `c` (V8's sort is stable;
for the consistent comparators used here every stable sort agrees with
this insertion sort). -/
def jsSortBy (c : α → α → Int) (l : List α) : List α :=
  l.foldl (fun acc x => insertCmp c x acc) []

/-- `Utilities.formatString("%02d", n)` for a non-negative value. -/
def pad2 (n : Int) : String :=
  if n < 10 then "0" ++ toString n else toString n

/-- `Utilities.formatString("%04d", n)` for a non-negative value. -/
def pad4 (n : Int) : String :=
  if n < 10 then "000" ++ toString n
  else if n < 100 then "00" ++ toString n
  else if n < 1000 then "0" ++ toString n
  else toString n

/-- `formatElapsedMs` (`test-utils.js`): elapsed milliseconds rendered
as HH:mm:ss (hours not wrapped). -/
def formatElapsedMs (elapsedMs : Int) : String :=
  if elapsedMs < 0 then "00:00:00"
  else
    let totalSeconds := elapsedMs / 1000
    let hours := totalSeconds / 3600
    let minutes := totalSeconds % 3600 / 60
    let seconds := totalSeconds % 60
    pad2 hours ++ ":" ++ pad2 minutes ++ ":" ++ pad2 seconds

/-- `Utilities.formatDate(new Date(ms), "UTC", "HH:mm:ss")`: clock time
of an epoch-relative instant (wraps modulo 24 h; `Int.emod` is
non-negative, matching pre-epoch dates). -/
def utcHHmmss (ms : Int) : String :=
  let m := ms.emod 86400000
  pad2 (m / 3600000) ++ ":" ++ pad2 (m % 3600000 / 60000) ++ ":" ++ pad2 (m % 60000 / 1000)

/-- `Utilities.formatDate(..., "Asia/Tokyo", "yyyy/MM/dd HH:mm:ss")`.
The calendar rendering itself is irrelevant to every claim; we keep the
timestamp's value (the rendering is injective in it). -/
def formatDateTime (t : Int) : String := toString t

-- =====================================================================
-- Match domain: opponents map, waiting pool, pairing
-- =====================================================================

/-- Point update of the opponents map: add `q` to `m p`
(`opponentsMap.get(p).add(q)`; a JS `Set`, so only membership counts). -/
def addOpp (m : String → List String) (p q : String) : String → List String :=
  fun x => if x = p then m x ++ [q] else m x

/-- `buildOpponentsMap` (`match-domain.js` 35-54): fold the history rows,
skipping rows with an empty ID, recording each pairing symmetrically. -/
def buildOpponentsMap (historyData : List HistRow) : String → List String :=
  historyData.foldl
    (fun m row =>
      if row.id1 = "" ∨ row.id2 = "" then m
      else addOpp (addOpp m row.id1 row.id2) row.id2 row.id1)
    (fun _ => [])

/-- `getPastOpponents` (`src/unnamed/part_001` 284-309): per-player scan
of the history rows; note it does not skip rows with empty IDs. -/
def getPastOpponents (historyData : List HistRow) (playerId : String) : List String :=
  historyData.foldl
    (fun ops row =>
      if row.id1 = playerId then ops ++ [row.id2]
      else if row.id2 = playerId then ops ++ [row.id1]
      else ops)
    []

/-- The sort comparator of `getAndSortWaitingPlayers` (`match-domain.js`)
and of `getWaitingPlayers` (`player-domain.js`): win count descending,
then `lastMatchTimestamp` ascending (non-`Date` cells count as 0). -/
def cmpWaitingAsc (a b : PlayerRow) : Int :=
  let winsDiff := b.wins - a.wins
  if winsDiff ≠ 0 then winsDiff
  else a.lastMatch.getD 0 - b.lastMatch.getD 0

/-- The sort comparator of the `getWaitingPlayers` variant
(`src/unnamed/part_001`): win count descending, then
`lastMatchTimestamp` descending. -/
def cmpWaitingDesc (a b : PlayerRow) : Int :=
  let winsDiff := b.wins - a.wins
  if winsDiff ≠ 0 then winsDiff
  else b.lastMatch.getD 0 - a.lastMatch.getD 0

/-- `getAndSortWaitingPlayers` (`match-domain.js` 62-74). -/
def getAndSortWaitingPlayers (playerData : List PlayerRow) : List PlayerRow :=
  jsSortBy cmpWaitingAsc (playerData.filter (fun row => row.status = Status.waiting))

/-- `getWaitingPlayers` (`player-domain.js` 214-242). -/
def getWaitingPlayers (playerData : List PlayerRow) : List PlayerRow :=
  match playerData with
  | [] => []
  | _ =>
    jsSortBy cmpWaitingAsc (playerData.filter (fun row => row.status = Status.waiting))

/-- `getWaitingPlayers` variant (`src/unnamed/part_001` 249-275):
identical selection, opposite timestamp tie-break. -/
def getWaitingPlayersVariant (playerData : List PlayerRow) : List PlayerRow :=
  match playerData with
  | [] => []
  | _ =>
    jsSortBy cmpWaitingDesc (playerData.filter (fun row => row.status = Status.waiting))

/-- `findMatchPairs` (`match-domain.js` 83-116): greedily take the head
of the waiting pool, pair it with the first remaining player not in its
past-opponents set, else set it aside; the final leftovers join the
skipped list. -/
def findMatchPairs (opponentsMap : String → List String) :
    List PlayerRow → List (String × String) × List PlayerRow
  | [] => ([], [])
  | [p] => ([], [p])
  | p1 :: q :: rest =>
    match h : extractFirst (fun p2 => decide (p2.id ∉ opponentsMap p1.id)) (q :: rest) with
    | some (p2, remaining) =>
      let r := findMatchPairs opponentsMap remaining
      ((p1.id, p2.id) :: r.1, r.2)
    | none =>
      let r := findMatchPairs opponentsMap (q :: rest)
      (r.1, p1 :: r.2)
termination_by l => l.length
decreasing_by
  · have hlen := extractFirst_length h
    simp only [List.length_cons] at hlen ⊢
    omega
  · simp only [List.length_cons]
    omega

-- =====================================================================
-- Table status, validation and allocation helpers
-- =====================================================================

/-- A free table as collected by `getTableStatus`: its data-array index
and its number (`{ row: i, tableNumber }`). -/
structure AvailTable where
  row : Nat
  tableNumber : Int
deriving DecidableEq, Repr

/-- `getTableStatus` (`match-domain.js` 124-141): split the in-progress
rows into free tables (empty ID1) kept in row order and the set of
numbers of occupied tables.  Data index `i` of the source is the list
position plus 1 (the header row is not part of the model's list). -/
def getTableStatus (matchData : List TableRow) : List AvailTable × List Int :=
  matchData.enum.foldl
    (fun acc p =>
      let row := p.2
      if row.tableNumber = 0 then acc
      else if row.id1 = "" then (acc.1 ++ [⟨p.1 + 1, row.tableNumber⟩], acc.2)
      else (acc.1, insertSet row.tableNumber acc.2))
    ([], [])

/-- `validateTableNumber` (`test-utils.js` 254-270): an integer in
[MIN_TABLE_NUMBER, maxTables]. -/
def validateTableNumber (tableNumber : Int) (maxTables : Nat) : Bool :=
  MIN_TABLE_NUMBER ≤ tableNumber ∧ tableNumber ≤ (maxTables : Int)

/-- `getNextAvailableTableNumber` (`test-utils.js` 303-324): the lowest
number in [1, maxTables] not present in any row of the sheet (occupied
or not); the source throws when there is none (`none` here). -/
def getNextAvailableTableNumber (rows : List TableRow) (maxTables : Nat) : Option Int :=
  let usedNumbers := rows.foldl
    (fun s r => if r.tableNumber = 0 then s else insertSet r.tableNumber s) []
  (List.range maxTables).map (fun (i : Nat) => (i : Int) + 1) |>.find? (fun n => !(usedNumbers.contains n))

/-- `getLastTableNumber` (`test-utils.js` 331-353): scanning the history
from the latest row, the table of the last decided match the player
won (ID1 column, non-empty 対戦時間). -/
def getLastTableNumber (historyData : List HistRow) (playerId : String) : Option Int :=
  (historyData.reverse.find? (fun r => r.id1 == playerId && r.duration != "")).map
    (fun r => r.tableNumber)

/-- `buildPlayerNameMap` (`match-domain.js` 17-27): id → name, skipping
empty ids; a later row overwrites an earlier one (`Map.set`). -/
def buildPlayerNameMap (playerData : List PlayerRow) : String → Option String :=
  playerData.foldl
    (fun m row =>
      if row.id = "" then m
      else fun x => if x = row.id then some row.name else m x)
    (fun _ => none)

/-- `getPlayerName` (`test-utils.js` 232-247): name of the first row
with the given id, falling back to the id itself. -/
def getPlayerName (playerData : List PlayerRow) (playerId : String) : String :=
  match playerData.find? (fun row => row.id == playerId) with
  | some row => if row.name = "" then playerId else row.name
  | none => playerId

-- =====================================================================
-- planMatches
-- =====================================================================

/-- Result of `planMatches` (`match-domain.js` 268-314). -/
structure PlanResult where
  ok : Bool
  reason : String := ""
  actualMatches : List (String × String) := []
  skippedMatches : List (String × String) := []
  availableTables : List AvailTable := []
  usedTables : List Int := []
deriving DecidableEq, Repr

/-- `planMatches` (`match-domain.js` 268-314): pair the waiting pool,
then cap the accepted pairings by the available slots
(free tables plus creatable tables up to `maxTables`); the pairings
beyond the cap are reported as skipped.  `Nat` subtraction coincides
with the source's `Math.max(0, maxTables - totalExistingTables)`. -/
def planMatches (waitingPlayers : List PlayerRow) (opponentsMap : String → List String)
    (matchData : List TableRow) (maxTables : Nat) : PlanResult :=
  if waitingPlayers.length < 2 then
    { ok := false
      reason := "警告: 現在待機中のプレイヤーは " ++ toString waitingPlayers.length ++ " 人です。2人以上必要です。" }
  else
    let found := findMatchPairs opponentsMap waitingPlayers
    if found.1 = [] then
      { ok := false, reason := "警告: 新しいマッチングは成立しませんでした。" }
    else
      let ts := getTableStatus matchData
      let totalExistingTables := ts.1.length + ts.2.length
      let maxNewTables := maxTables - totalExistingTables
      let totalAvailableSlots := ts.1.length + maxNewTables
      { ok := true
        actualMatches := found.1.take totalAvailableSlots
        skippedMatches := found.1.drop totalAvailableSlots
        availableTables := ts.1
        usedTables := ts.2 }

-- =====================================================================
-- writeMatchResults
-- =====================================================================

/-- The mutable trio threaded through the `writeMatchResults` loop:
the free-table array, the set of numbers already taken this run, and
the in-progress rows as currently on the sheet. -/
structure AllocState where
  avail : List AvailTable
  used : List Int
  rows : List TableRow
deriving DecidableEq, Repr

/-- `isTableAvailableForReuse` (nested in `writeMatchResults`,
`match-domain.js` 172-179). -/
def isTableAvailableForReuse (st : AllocState) (maxTables : Nat) : Option Int → Bool
  | none => false
  | some tableNum =>
    if tableNum = 0 then false
    else if !(validateTableNumber tableNum maxTables) then false
    else if tableNum ∈ st.used then false
    else st.avail.any (fun t => t.tableNumber == tableNum)

/-- Update the element at position `i` (sheet write by row position). -/
def updateAt (i : Nat) (f : α → α) : List α → List α
  | [] => []
  | x :: xs =>
    match i with
    | 0 => f x :: xs
    | n + 1 => x :: updateAt n f xs

/-- One reuse attempt of `writeMatchResults`: if the given last-used
table passes `isTableAvailableForReuse`, splice it out of the free
array and take it (the splice always finds it, since the availability
check required membership). Returns the chosen data-row index, the
table number and the new allocation state. -/
def tryReuse (st : AllocState) (maxTables : Nat) (lastTable : Option Int) :
    Option (Nat × Int × AllocState) :=
  if isTableAvailableForReuse st maxTables lastTable then
    match lastTable with
    | none => none
    | some t =>
      match extractFirst (fun a => a.tableNumber == t) st.avail with
      | none => none
      | some (table, rest) =>
        some (table.row, table.tableNumber,
          { st with avail := rest, used := insertSet table.tableNumber st.used })
  else none

/-- Table allocation for one accepted pair (`writeMatchResults`,
`match-domain.js` 168-211): the winner-lineage player's last table if
reusable, else the other player's, else the first free table in the
array, else a freshly created row numbered by
`getNextAvailableTableNumber` (`none` = the source throws). -/
def allocateTable (historyData : List HistRow) (maxTables : Nat)
    (p1Id p2Id : String) (st : AllocState) : Option (Nat × Int × AllocState) :=
  let lastTableP1 := getLastTableNumber historyData p1Id
  let lastTableP2 := getLastTableNumber historyData p2Id
  match tryReuse st maxTables lastTableP1 with
  | some r => some r
  | none =>
    match tryReuse st maxTables lastTableP2 with
    | some r => some r
    | none =>
      match st.avail with
      | table :: rest =>
        some (table.row, table.tableNumber,
          { st with avail := rest, used := insertSet table.tableNumber st.used })
      | [] =>
        match getNextAvailableTableNumber st.rows maxTables with
        | some n =>
          some (st.rows.length + 1, n,
            { st with rows := st.rows ++ [{ tableNumber := n }], used := insertSet n st.used })
        | none => none

/-- `playerNameMap.get(id) || id` (empty names also fall back). -/
def nameOr (nameMap : String → Option String) (playerId : String) : String :=
  match nameMap playerId with
  | some n => if n = "" then playerId else n
  | none => playerId

/-- The per-pair loop of `writeMatchResults`: allocate a table, then
write ID1/name1/ID2/name2/start time (and clear 経過時間) into the
chosen row.  A failed allocation propagates as the source's exception:
the loop stops, keeping the writes already made. -/
def writeMatchLoop (historyData : List HistRow) (maxTables : Nat)
    (nameMap : String → Option String) (now : Int) :
    List (String × String) → AllocState → List TableRow
  | [], st => st.rows
  | m :: ms, st =>
    match allocateTable historyData maxTables m.1 m.2 st with
    | none => st.rows
    | some (targetRow, _, st') =>
      writeMatchLoop historyData maxTables nameMap now ms
        { st' with
          rows := updateAt (targetRow - 1)
            (fun r =>
              { r with
                id1 := m.1, name1 := nameOr nameMap m.1
                id2 := m.2, name2 := nameOr nameMap m.2
                startedAt := some now, elapsed := "" })
            st'.rows }

/-- `writeMatchResults` (`match-domain.js` 147-226): flip every paired
player's status to 対戦中, then run the allocation/write loop. -/
def writeMatchResults (actualMatches : List (String × String))
    (playerData : List PlayerRow) (historyData : List HistRow)
    (availableTables : List AvailTable) (usedTables : List Int)
    (inProgress : List TableRow) (maxTables : Nat) (now : Int) :
    List PlayerRow × List TableRow :=
  let nameMap := buildPlayerNameMap playerData
  let ids : List String := actualMatches.foldl (fun s m => s ++ [m.1, m.2]) []
  let players := playerData.map
    (fun row => if row.id ∈ ids then { row with status := Status.inProgress } else row)
  (players,
    writeMatchLoop historyData maxTables nameMap now actualMatches
      { avail := availableTables, used := usedTables, rows := inProgress })

/-- `updateAllMatchTimes` (`match-domain.js` 695-746): refresh the
経過時間 column from the start times (blank for rows without a valid
start time; negative elapsed clamped to 0). -/
def updateAllMatchTimes (now : Int) (rows : List TableRow) : List TableRow :=
  rows.map (fun r =>
    match r.startedAt with
    | some t => { r with elapsed := formatElapsedMs (max 0 (now - t)) }
    | none => { r with elapsed := "" })

/-- `matchPlayers` (`match-domain.js` 342-385) as a state transition:
maintenance suppression, then `loadMatchContext` / `planMatches` /
`applyMatchPlan` (which also refreshes the elapsed times). -/
def matchPlayersRun (now : Int) (s : State) : State :=
  if s.maintenance then s
  else
    let waitingPlayers := getAndSortWaitingPlayers s.players
    let opponentsMap := buildOpponentsMap s.history
    let plan := planMatches waitingPlayers opponentsMap s.inProgress s.maxTables
    if plan.ok then
      let w := writeMatchResults plan.actualMatches s.players s.history
        plan.availableTables plan.usedTables s.inProgress s.maxTables now
      { s with players := w.1, inProgress := updateAllMatchTimes now w.2 }
    else s

-- =====================================================================
-- Player statistics and match correction
-- =====================================================================

/-- `updatePlayerMatchStats` (`player-domain.js` 251-283): update the
first row carrying the given id (the source's loop returns after the
first hit); silently a no-op when the player is not found. -/
def updatePlayerMatchStats (playerId : String) (isWinner : Bool) (timestamp : Int) :
    List PlayerRow → List PlayerRow
  | [] => []
  | row :: rest =>
    if row.id = playerId then
      { row with
        wins := row.wins + (if isWinner then 1 else 0)
        losses := row.losses + (if isWinner then 0 else 1)
        played := row.played + 1
        lastMatch := some timestamp } :: rest
    else row :: updatePlayerMatchStats playerId isWinner timestamp rest

/-- The statistics-compensation loop of `correctMatchResult`
(`match-domain.js` 524-542): every row of the recorded winner loses one
win (floored at 0) and gains one loss; every row of the recorded loser
gains one win and loses one loss (floored at 0). -/
def correctMatchStats (currentWinnerId currentLoserId : String)
    (playerData : List PlayerRow) : List PlayerRow :=
  playerData.map (fun row =>
    if row.id = currentWinnerId then
      { row with wins := max 0 (row.wins - 1), losses := row.losses + 1 }
    else if row.id = currentLoserId then
      { row with wins := row.wins + 1, losses := max 0 (row.losses - 1) }
    else row)

/-- `findMatchById` (`match-domain.js` 647-658): the first history row
with the given 対戦ID. -/
def findMatchById (historyData : List HistRow) (matchId : String) : Option HistRow :=
  historyData.find? (fun row => row.matchId == matchId)

/-- The history update of `correctMatchResult` (`match-domain.js`
511-514): swap winner/loser ids and names on the first row carrying the
match id. -/
def swapFirstMatch (matchId : String) : List HistRow → List HistRow
  | [] => []
  | row :: rest =>
    if row.matchId = matchId then
      { row with
        id1 := row.id2, winnerName := row.loserName
        id2 := row.id1, loserName := row.winnerName } :: rest
    else row :: swapFirstMatch matchId rest

/-- The committed portion of `correctMatchResult` (`match-domain.js`
454-551), after the operator confirms: swap winner/loser on the found
history row and compensate both players' statistics.  `none` when the
match id is not found. -/
def correctMatchResult (matchId : String) (s : State) : Option State :=
  match findMatchById s.history matchId with
  | none => none
  | some m =>
    some { s with
      history := swapFirstMatch matchId s.history
      players := correctMatchStats m.id1 m.id2 s.players }

-- =====================================================================
-- updatePlayerState
-- =====================================================================

/-- The options object of `updatePlayerState` (`player-domain.js` 299). -/
structure UpsOptions where
  targetPlayerId : String
  newStatus : Status
  opponentNewStatus : Status
  recordResult : Bool := false
  isTargetWinner : Bool := false
deriving DecidableEq, Repr

/-- The result object of `updatePlayerState`. -/
structure UpsResult where
  success : Bool
  message : String
  opponentId : Option String := none
deriving DecidableEq, Repr

/-- The DataConsistencyError message of `updatePlayerState`
(`player-domain.js` 370). -/
def msgInconsistent (targetPlayerId : String) : String :=
  "データ不整合: 対戦中のはずのプレイヤーID " ++ targetPlayerId ++ " の対戦相手が見つかりません。"

/-- Step 3's opponent search (`player-domain.js` 353-367): the first
in-progress row containing the target, together with its list index
(sheet row = index + 2). -/
def findOpponentRow (targetPlayerId : String) : List TableRow → Option (String × Nat)
  | [] => none
  | r :: rest =>
    if r.id1 = targetPlayerId then some (r.id2, 0)
    else if r.id2 = targetPlayerId then some (r.id1, 0)
    else (findOpponentRow targetPlayerId rest).map (fun p => (p.1, p.2 + 1))

/-- Step 4 of `updatePlayerState` (`player-domain.js` 389-420): append
the history record and update both players' statistics.  `none` models
the source's exception paths — reading row −1 when the target was not
in progress, or calling `getTime()` on a non-date start cell — all of
which occur before the first write. -/
def recordResultStep (opts : UpsOptions) (now : Int) (s : State)
    (opp? : Option String) (matchRowIdx? : Option Nat) :
    Option (List HistRow × List PlayerRow) :=
  match matchRowIdx? with
  | none => none
  | some j =>
    match s.inProgress.get? j with
    | none => none
    | some trow =>
      match trow.startedAt with
      | none => none
      | some startTime =>
        let newId := "T" ++ pad4 (1 + s.history.length)
        let winner := if opts.isTargetWinner then opts.targetPlayerId else opp?.getD ""
        let loser := if opts.isTargetWinner then opp?.getD "" else opts.targetPlayerId
        let row : HistRow :=
          { matchId := newId
            tableNumber := trow.tableNumber
            id1 := winner, winnerName := getPlayerName s.players winner
            id2 := loser, loserName := getPlayerName s.players loser
            endedAt := formatDateTime now
            duration := utcHHmmss (now - startTime) }
        some (s.history ++ [row],
          updatePlayerMatchStats loser false now
            (updatePlayerMatchStats winner true now s.players))

/-- Steps 4-7 of `updatePlayerState` (`player-domain.js` 388-453):
optional result recording, clearing the in-progress row (keeping the
卓番号), applying the new statuses, and the automatic re-matching
trigger when the waiting pool reaches two. -/
def upsCommit (opts : UpsOptions) (now : Int) (s : State)
    (inProgressTarget : Bool) (opp? : Option String) (matchRowIdx? : Option Nat) :
    UpsResult × State :=
  let afterRecord? : Option (List HistRow × List PlayerRow) :=
    if opts.recordResult then recordResultStep opts now s opp? matchRowIdx?
    else some (s.history, s.players)
  match afterRecord? with
  | none => (⟨false, "エラーが発生しました。", none⟩, s)
  | some (history, players0) =>
    let inProgress :=
      if inProgressTarget then
        match matchRowIdx? with
        | some j =>
          updateAt j
            (fun r =>
              { r with id1 := "", name1 := "", id2 := "", name2 := ""
                       startedAt := none, elapsed := "" })
            s.inProgress
        | none => s.inProgress
      else s.inProgress
    let players := players0.map (fun row =>
      if row.id = opts.targetPlayerId then { row with status := opts.newStatus }
      else if opp? = some row.id then { row with status := opts.opponentNewStatus }
      else row)
    let s1 : State := { s with players := players, history := history, inProgress := inProgress }
    let s2 := if 2 ≤ (getWaitingPlayers s1.players).length then matchPlayersRun now s1 else s1
    (⟨true, "状態変更が完了しました。", opp?⟩, s2)

/-- `updatePlayerState` (`player-domain.js` 299-464): the single entry
point for player status changes.  Returns the result object and the
spreadsheet state after the call (unchanged on every failure). -/
def updatePlayerState (opts : UpsOptions) (now : Int) (s : State) : UpsResult × State :=
  match s.players.find? (fun row => row.id == opts.targetPlayerId) with
  | none =>
    (⟨false, "プレイヤー " ++ opts.targetPlayerId ++ " が見つかりません。", none⟩, s)
  | some target =>
    if target.status = Status.dropped then
      (⟨false, "プレイヤー " ++ opts.targetPlayerId ++ " はすでにドロップアウトしています。", none⟩, s)
    else if target.status = Status.inProgress then
      match findOpponentRow opts.targetPlayerId s.inProgress with
      | none => (⟨false, msgInconsistent opts.targetPlayerId, none⟩, s)
      | some (oppId, matchRowIdx) =>
        if oppId = "" then (⟨false, msgInconsistent opts.targetPlayerId, none⟩, s)
        else
          let opponentDropped : Bool :=
            match s.players.find? (fun row => row.id == oppId) with
            | some orow => orow.status == Status.dropped
            | none => false
          if opponentDropped && !(opts.opponentNewStatus == Status.dropped) then
            (⟨false, "対戦相手はすでにドロップアウトしています。", none⟩, s)
          else
            upsCommit opts now s true (some oppId) (some matchRowIdx)
    else
      upsCommit opts now s false none none

-- =====================================================================
-- Helper lemmas
-- =====================================================================

theorem extractFirst_pred {p : α → Bool} :
    ∀ {l : List α} {x : α} {xs : List α}, extractFirst p l = some (x, xs) → p x = true := by
  intro l
  induction l with
  | nil => intro x xs h; simp [extractFirst] at h
  | cons a as ih =>
    intro x xs h
    by_cases hp : p a
    · simp [extractFirst, hp] at h
      simp [← h.1, hp]
    · rcases hext : extractFirst p as with _ | ⟨y, ys⟩
      · simp [extractFirst, hp, hext] at h
      · simp [extractFirst, hp, hext] at h
        have := ih hext
        simp [← h.1, this]

theorem extractFirst_perm {p : α → Bool} :
    ∀ {l : List α} {x : α} {xs : List α},
      extractFirst p l = some (x, xs) → l.Perm (x :: xs) := by
  intro l
  induction l with
  | nil => intro x xs h; simp [extractFirst] at h
  | cons a as ih =>
    intro x xs h
    by_cases hp : p a
    · simp [extractFirst, hp] at h
      rw [h.1, h.2]
    · rcases hext : extractFirst p as with _ | ⟨y, ys⟩
      · simp [extractFirst, hp, hext] at h
      · simp [extractFirst, hp, hext] at h
        have hperm := ih hext
        rw [← h.1, ← h.2]
        exact (hperm.cons a).trans (List.Perm.swap y a ys)

theorem extractFirst_of_any {p : α → Bool} :
    ∀ {l : List α}, l.any p = true → ∃ x xs, extractFirst p l = some (x, xs) := by
  intro l
  induction l with
  | nil => intro h; simp at h
  | cons a as ih =>
    intro h
    by_cases hp : p a
    · exact ⟨a, as, by simp [extractFirst, hp]⟩
    · simp [hp] at h
      obtain ⟨x, xs, hx⟩ := ih (by simpa using h)
      exact ⟨x, a :: xs, by simp [extractFirst, hp, hx]⟩

theorem mem_addOpp {m : String → List String} {p q x y : String} :
    y ∈ addOpp m p q x ↔ y ∈ m x ∨ (x = p ∧ y = q) := by
  unfold addOpp
  by_cases hx : x = p <;> simp [hx]

/-- Membership in the opponents map, characterised by the history rows. -/
theorem mem_buildOpponentsMap {historyData : List HistRow} {x y : String} :
    y ∈ buildOpponentsMap historyData x ↔
      ∃ r ∈ historyData, r.id1 ≠ "" ∧ r.id2 ≠ "" ∧
        ((x = r.id1 ∧ y = r.id2) ∨ (x = r.id2 ∧ y = r.id1)) := by
  have aux : ∀ (l : List HistRow) (m : String → List String),
      y ∈ (l.foldl
        (fun m row =>
          if row.id1 = "" ∨ row.id2 = "" then m
          else addOpp (addOpp m row.id1 row.id2) row.id2 row.id1) m) x ↔
      y ∈ m x ∨ ∃ r ∈ l, r.id1 ≠ "" ∧ r.id2 ≠ "" ∧
        ((x = r.id1 ∧ y = r.id2) ∨ (x = r.id2 ∧ y = r.id1)) := by
    intro l
    induction l with
    | nil => intro m; simp
    | cons r rest ih =>
      intro m
      simp only [List.foldl_cons]
      rw [ih]
      by_cases hr : r.id1 = "" ∨ r.id2 = ""
      · simp only [if_pos hr]
        constructor
        · rintro (h | h)
          · exact Or.inl h
          · exact Or.inr ⟨h.choose, by
              have := h.choose_spec
              exact ⟨List.mem_cons_of_mem _ this.1, this.2⟩⟩
        · rintro (h | ⟨s, hs, hne1, hne2, hcase⟩)
          · exact Or.inl h
          · rcases List.mem_cons.mp hs with heq | hmem
            · subst heq
              rcases hr with h1 | h2
              · exact absurd h1 hne1
              · exact absurd h2 hne2
            · exact Or.inr ⟨s, hmem, hne1, hne2, hcase⟩
      · push_neg at hr
        simp only [if_neg (by tauto : ¬(r.id1 = "" ∨ r.id2 = ""))]
        rw [show (addOpp (addOpp m r.id1 r.id2) r.id2 r.id1) x =
          addOpp (addOpp m r.id1 r.id2) r.id2 r.id1 x from rfl]
        constructor
        · rintro (h | ⟨s, hs, hprop⟩)
          · rcases mem_addOpp.mp h with h2 | h2
            · rcases mem_addOpp.mp h2 with h3 | h3
              · exact Or.inl h3
              · exact Or.inr ⟨r, List.mem_cons_self _ _, hr.1, hr.2, Or.inl h3⟩
            · exact Or.inr ⟨r, List.mem_cons_self _ _, hr.1, hr.2, Or.inr h2⟩
          · exact Or.inr ⟨s, List.mem_cons_of_mem _ hs, hprop⟩
        · rintro (h | ⟨s, hs, hne1, hne2, hcase⟩)
          · exact Or.inl (mem_addOpp.mpr (Or.inl (mem_addOpp.mpr (Or.inl h))))
          · rcases List.mem_cons.mp hs with heq | hmem
            · subst heq
              rcases hcase with hc | hc
              · exact Or.inl (mem_addOpp.mpr (Or.inl (mem_addOpp.mpr (Or.inr hc))))
              · exact Or.inl (mem_addOpp.mpr (Or.inr hc))
            · exact Or.inr ⟨s, hmem, hne1, hne2, hcase⟩
  unfold buildOpponentsMap
  rw [aux]
  simp

/-- Membership in `getPastOpponents`, characterised by the history rows. -/
theorem mem_getPastOpponents {historyData : List HistRow} {x y : String} :
    y ∈ getPastOpponents historyData x ↔
      ∃ r ∈ historyData,
        (r.id1 = x ∧ r.id2 = y) ∨ (r.id1 ≠ x ∧ r.id2 = x ∧ r.id1 = y) := by
  have aux : ∀ (l : List HistRow) (acc : List String),
      y ∈ (l.foldl
        (fun ops row =>
          if row.id1 = x then ops ++ [row.id2]
          else if row.id2 = x then ops ++ [row.id1]
          else ops) acc) ↔
      y ∈ acc ∨ ∃ r ∈ l,
        (r.id1 = x ∧ r.id2 = y) ∨ (r.id1 ≠ x ∧ r.id2 = x ∧ r.id1 = y) := by
    intro l
    induction l with
    | nil => intro acc; simp
    | cons r rest ih =>
      intro acc
      simp only [List.foldl_cons]
      rw [ih]
      by_cases h1 : r.id1 = x
      · simp only [if_pos h1, List.mem_append, List.mem_singleton]
        constructor
        · rintro ((h | h) | h)
          · exact Or.inl h
          · exact Or.inr ⟨r, List.mem_cons_self _ _, Or.inl ⟨h1, h.symm⟩⟩
          · obtain ⟨s, hs, hc⟩ := h
            exact Or.inr ⟨s, List.mem_cons_of_mem _ hs, hc⟩
        · rintro (h | ⟨s, hs, hc⟩)
          · exact Or.inl (Or.inl h)
          · rcases List.mem_cons.mp hs with heq | hmem
            · subst heq
              rcases hc with ⟨_, h2⟩ | ⟨hne, _, _⟩
              · exact Or.inl (Or.inr h2.symm)
              · exact absurd h1 hne
            · exact Or.inr ⟨s, hmem, hc⟩
      · by_cases h2 : r.id2 = x
        · simp only [if_neg h1, if_pos h2, List.mem_append, List.mem_singleton]
          constructor
          · rintro ((h | h) | h)
            · exact Or.inl h
            · exact Or.inr ⟨r, List.mem_cons_self _ _, Or.inr ⟨h1, h2, h.symm⟩⟩
            · obtain ⟨s, hs, hc⟩ := h
              exact Or.inr ⟨s, List.mem_cons_of_mem _ hs, hc⟩
          · rintro (h | ⟨s, hs, hc⟩)
            · exact Or.inl (Or.inl h)
            · rcases List.mem_cons.mp hs with heq | hmem
              · subst heq
                rcases hc with ⟨ha, _⟩ | ⟨_, _, hb⟩
                · exact absurd ha h1
                · exact Or.inl (Or.inr hb.symm)
              · exact Or.inr ⟨s, hmem, hc⟩
        · simp only [if_neg h1, if_neg h2]
          constructor
          · rintro (h | ⟨s, hs, hc⟩)
            · exact Or.inl h
            · exact Or.inr ⟨s, List.mem_cons_of_mem _ hs, hc⟩
          · rintro (h | ⟨s, hs, hc⟩)
            · exact Or.inl h
            · rcases List.mem_cons.mp hs with heq | hmem
              · subst heq
                rcases hc with ⟨ha, _⟩ | ⟨_, hb, _⟩
                · exact absurd ha h1
                · exact absurd hb h2
              · exact Or.inr ⟨s, hmem, hc⟩
  unfold getPastOpponents
  rw [aux]
  simp

-- =====================================================================
-- C7: canonical waiting-pool ordering
-- =====================================================================

/-- C7 (counterexample): the claim that all three waiting-pool sorters
produce the same ordering is false — on two waiting players with equal
wins and different last-match timestamps, `getAndSortWaitingPlayers`
(`match-domain.js`, ascending tie-break) and the `getWaitingPlayers`
variant of `src/unnamed/part_001` (descending tie-break) disagree. -/
theorem c7_counterexample :
    getAndSortWaitingPlayers
        [{ id := "P1", name := "A", wins := 1, losses := 0, played := 1,
           status := Status.waiting, lastMatch := some 5 },
         { id := "P2", name := "B", wins := 1, losses := 0, played := 1,
           status := Status.waiting, lastMatch := some 9 }] ≠
      getWaitingPlayersVariant
        [{ id := "P1", name := "A", wins := 1, losses := 0, played := 1,
           status := Status.waiting, lastMatch := some 5 },
         { id := "P2", name := "B", wins := 1, losses := 0, played := 1,
           status := Status.waiting, lastMatch := some 9 }] := by
  decide

/-- C7 (amended): `getAndSortWaitingPlayers` (`match-domain.js`) and
`getWaitingPlayers` (`player-domain.js`) apply the same canonical
ordering — win count descending, then `lastMatchTimestamp` ascending —
and agree on every player list; the `getWaitingPlayers` variant of
`src/unnamed/part_001` uses the opposite (descending) tie-break and can
produce a different order. -/
theorem c7_waiting_sorts_agree (playerData : List PlayerRow) :
    getAndSortWaitingPlayers playerData = getWaitingPlayers playerData := by
  cases playerData <;> rfl

-- =====================================================================
-- C8: symmetry and irreflexivity of the past-opponents relation
-- =====================================================================

/-- C8 (counterexample): irreflexivity fails for every history
containing a self-match row — with a history recording P1 vs P1, P1 is
in its own past-opponents set, both via `buildOpponentsMap`
(`match-domain.js`) and via `getPastOpponents`
(`src/unnamed/part_001`). -/
theorem c8_counterexample :
    "P1" ∈ buildOpponentsMap [{ id1 := "P1", id2 := "P1" }] "P1" ∧
    "P1" ∈ getPastOpponents [{ id1 := "P1", id2 := "P1" }] "P1" := by
  decide

/-- C8 (amended): for every match history the past-opponents relation is
symmetric (for both `buildOpponentsMap` and `getPastOpponents`), and it
is irreflexive provided no history row records the same id on both
sides (which holds for genuine matches between distinct players). -/
theorem c8_past_opponents_symm_irrefl (historyData : List HistRow) :
    (∀ a b, a ∈ buildOpponentsMap historyData b ↔ b ∈ buildOpponentsMap historyData a) ∧
    (∀ a b, a ∈ getPastOpponents historyData b ↔ b ∈ getPastOpponents historyData a) ∧
    ((∀ r ∈ historyData, r.id1 ≠ r.id2) →
      ∀ a, a ∉ buildOpponentsMap historyData a ∧ a ∉ getPastOpponents historyData a) := by
  refine ⟨?_, ?_, ?_⟩
  · intro a b
    rw [mem_buildOpponentsMap, mem_buildOpponentsMap]
    constructor <;>
    · rintro ⟨r, hr, h1, h2, hc | hc⟩
      · exact ⟨r, hr, h1, h2, Or.inr ⟨hc.2, hc.1⟩⟩
      · exact ⟨r, hr, h1, h2, Or.inl ⟨hc.2, hc.1⟩⟩
  · have helper : ∀ x y : String,
        (∃ r ∈ historyData, (r.id1 = x ∧ r.id2 = y) ∨ (r.id1 ≠ x ∧ r.id2 = x ∧ r.id1 = y)) →
        ∃ r ∈ historyData, (r.id1 = y ∧ r.id2 = x) ∨ (r.id1 ≠ y ∧ r.id2 = y ∧ r.id1 = x) := by
      rintro x y ⟨r, hr, ⟨h1, h2⟩ | ⟨hne, h2, h3⟩⟩
      · by_cases hab : r.id1 = y
        · exact ⟨r, hr, Or.inl ⟨hab, h2.trans (hab.symm.trans h1)⟩⟩
        · exact ⟨r, hr, Or.inr ⟨hab, h2, h1⟩⟩
      · exact ⟨r, hr, Or.inl ⟨h3, h2⟩⟩
    intro a b
    rw [mem_getPastOpponents, mem_getPastOpponents]
    exact ⟨helper b a, helper a b⟩
  · intro hnoself a
    constructor
    · intro hmem
      obtain ⟨r, hr, _, _, hc | hc⟩ := mem_buildOpponentsMap.mp hmem
      · exact hnoself r hr (hc.1 ▸ hc.2 ▸ rfl)
      · exact hnoself r hr (hc.2 ▸ hc.1 ▸ rfl)
    · intro hmem
      obtain ⟨r, hr, hc | hc⟩ := mem_getPastOpponents.mp hmem
      · exact hnoself r hr (hc.1.trans hc.2.symm)
      · exact absurd hc.2.2 hc.1

/-- C8 (witness): the amended irreflexivity instantiated on a concrete
self-match-free history. -/
theorem c8_witness :
    (∀ r ∈ [({ id1 := "P1", id2 := "P2" } : HistRow)], r.id1 ≠ r.id2) ∧
    ("P1" ∉ buildOpponentsMap [{ id1 := "P1", id2 := "P2" }] "P1" ∧
     "P1" ∉ getPastOpponents [{ id1 := "P1", id2 := "P2" }] "P1") :=
  ⟨by decide,
   (c8_past_opponents_symm_irrefl [{ id1 := "P1", id2 := "P2" }]).2.2 (by decide) "P1"⟩

-- =====================================================================
-- Concrete sample data used by witnesses and counterexamples
-- =====================================================================

/-- A history of one recorded match: P1 beat P2. -/
def hist1 : List HistRow := [{ id1 := "P1", id2 := "P2" }]

/-- A waiting player row with the given id. -/
def wRow (i : String) : PlayerRow :=
  { id := i, name := "", wins := 0, losses := 0, played := 0, status := Status.waiting }

/-- Three waiting players P1, P2, P3. -/
def ws3 : List PlayerRow := [wRow "P1", wRow "P2", wRow "P3"]

-- =====================================================================
-- C1: rematch avoidance
-- =====================================================================

theorem findMatchPairs_cons_of_some {om : String → List String} {p1 q : PlayerRow}
    {rest : List PlayerRow} {p2 : PlayerRow} {remaining : List PlayerRow}
    (hext : extractFirst (fun r => decide (r.id ∉ om p1.id)) (q :: rest) = some (p2, remaining)) :
    findMatchPairs om (p1 :: q :: rest) =
      ((p1.id, p2.id) :: (findMatchPairs om remaining).1,
        (findMatchPairs om remaining).2) := by
  simp only [findMatchPairs]
  split
  · next a b heq =>
    have h2 := hext.symm.trans heq
    injection h2 with h3
    injection h3 with h4 h5
    subst h4; subst h5
    rfl
  · next heq =>
    rw [hext] at heq
    simp at heq

theorem findMatchPairs_cons_of_none {om : String → List String} {p1 q : PlayerRow}
    {rest : List PlayerRow}
    (hext : extractFirst (fun r => decide (r.id ∉ om p1.id)) (q :: rest) = none) :
    findMatchPairs om (p1 :: q :: rest) =
      ((findMatchPairs om (q :: rest)).1, p1 :: (findMatchPairs om (q :: rest)).2) := by
  simp only [findMatchPairs]
  split
  · next a b heq =>
    rw [hext] at heq
    simp at heq
  · rfl

theorem findMatchPairs_no_rematch (om : String → List String) :
    ∀ (ws : List PlayerRow) (a b : String),
      (a, b) ∈ (findMatchPairs om ws).1 → b ∉ om a := by
  intro ws
  induction ws using findMatchPairs.induct om with
  | case1 => intro a b h; simp [findMatchPairs] at h
  | case2 p => intro a b h; simp [findMatchPairs] at h
  | case3 p1 q rest p2 remaining hext ih =>
    intro a b hmem
    rw [findMatchPairs_cons_of_some hext] at hmem
    rcases List.mem_cons.mp hmem with heq | hmem2
    · have hp := extractFirst_pred hext
      injection heq with h1 h2
      subst h1; subst h2
      exact of_decide_eq_true hp
    · exact ih a b hmem2
  | case4 p1 q rest hext ih =>
    intro a b hmem
    rw [findMatchPairs_cons_of_none hext] at hmem
    exact ih a b hmem

/-- C1: a matching run never commits a pair with a recorded prior
match — for every history and waiting pool, a committed pair `(a, b)`
of `findMatchPairs` (run on the opponents map of `buildOpponentsMap`)
has `b` outside `a`\'s past-opponents set, symmetrically `a` outside
`b`\'s, and no usable history row records a match between `a` and `b`. -/
theorem c1_no_rematch_pairing (historyData : List HistRow)
    (waitingPlayers : List PlayerRow) (a b : String)
    (hpair : (a, b) ∈ (findMatchPairs (buildOpponentsMap historyData) waitingPlayers).1) :
    b ∉ buildOpponentsMap historyData a ∧
    a ∉ buildOpponentsMap historyData b ∧
    ∀ r ∈ historyData, r.id1 ≠ "" → r.id2 ≠ "" →
      ¬((r.id1 = a ∧ r.id2 = b) ∨ (r.id1 = b ∧ r.id2 = a)) := by
  have h1 := findMatchPairs_no_rematch (buildOpponentsMap historyData) waitingPlayers a b hpair
  refine ⟨h1, ?_, ?_⟩
  · intro hmem
    apply h1
    obtain ⟨r, hr, hne1, hne2, hc | hc⟩ := mem_buildOpponentsMap.mp hmem
    · exact mem_buildOpponentsMap.mpr ⟨r, hr, hne1, hne2, Or.inr ⟨hc.2, hc.1⟩⟩
    · exact mem_buildOpponentsMap.mpr ⟨r, hr, hne1, hne2, Or.inl ⟨hc.2, hc.1⟩⟩
  · intro r hr hne1 hne2 hcon
    apply h1
    apply mem_buildOpponentsMap.mpr
    rcases hcon with ⟨ha, hb⟩ | ⟨ha, hb⟩
    · exact ⟨r, hr, hne1, hne2, Or.inl ⟨ha.symm, hb.symm⟩⟩
    · exact ⟨r, hr, hne1, hne2, Or.inr ⟨hb.symm, ha.symm⟩⟩

/-- C1 (witness): on the history {P1 vs P2} and waiting pool
[P1, P2, P3], the engine pairs P1 with P3, and the theorem yields the
rematch-avoidance facts for that committed pair. -/
theorem c1_witness :
    (("P1", "P3") ∈ (findMatchPairs (buildOpponentsMap hist1) ws3).1) ∧
    ("P3" ∉ buildOpponentsMap hist1 "P1" ∧
     "P1" ∉ buildOpponentsMap hist1 "P3" ∧
     ∀ r ∈ hist1, r.id1 ≠ "" → r.id2 ≠ "" →
       ¬((r.id1 = "P1" ∧ r.id2 = "P3") ∨ (r.id1 = "P3" ∧ r.id2 = "P1"))) :=
  ⟨by simp [findMatchPairs, extractFirst, buildOpponentsMap, addOpp, hist1, ws3, wRow],
   c1_no_rematch_pairing hist1 ws3 "P1" "P3"
     (by simp [findMatchPairs, extractFirst, buildOpponentsMap, addOpp, hist1, ws3, wRow])⟩

-- =====================================================================
-- C10: findMatchPairs partitions its input
-- =====================================================================

theorem findMatchPairs_perm (om : String → List String) :
    ∀ ws : List PlayerRow,
      ((findMatchPairs om ws).1.flatMap (fun m => [m.1, m.2]) ++
        (findMatchPairs om ws).2.map (fun p => p.id)).Perm
        (ws.map (fun p => p.id)) := by
  intro ws
  induction ws using findMatchPairs.induct om with
  | case1 => simp [findMatchPairs]
  | case2 p => simp [findMatchPairs]
  | case3 p1 q rest p2 remaining hext ih =>
    rw [findMatchPairs_cons_of_some hext]
    have hperm := (extractFirst_perm hext).map (fun p : PlayerRow => p.id)
    show (p1.id :: p2.id :: ((findMatchPairs om remaining).1.flatMap (fun m => [m.1, m.2]) ++
        (findMatchPairs om remaining).2.map (fun p => p.id))).Perm
      (p1.id :: (q :: rest).map (fun p => p.id))
    exact ((ih.cons p2.id).cons p1.id).trans
      ((List.Perm.map (fun p : PlayerRow => p.id) (extractFirst_perm hext)).symm.cons p1.id)
  | case4 p1 q rest hext ih =>
    rw [findMatchPairs_cons_of_none hext]
    show ((findMatchPairs om (q :: rest)).1.flatMap (fun m => [m.1, m.2]) ++
        p1.id :: (findMatchPairs om (q :: rest)).2.map (fun p => p.id)).Perm
      (p1.id :: (q :: rest).map (fun p => p.id))
    exact List.perm_middle.trans (ih.cons p1.id)

theorem flatMap_pairs_ne :
    ∀ (l : List (String × String)),
      (l.flatMap (fun m => [m.1, m.2])).Nodup → ∀ p ∈ l, p.1 ≠ p.2 := by
  intro l
  induction l with
  | nil => simp
  | cons m ms ih =>
    intro hnd p hp
    have hnd2 : (m.1 :: m.2 :: ms.flatMap (fun x => [x.1, x.2])).Nodup := hnd
    rcases List.mem_cons.mp hp with rfl | hmem
    · intro hcon
      exact (List.nodup_cons.mp hnd2).1 (by simp [hcon])
    · exact ih ((List.nodup_cons.mp (List.nodup_cons.mp hnd2).2).2) p hmem

/-- C10: on a waiting pool with pairwise-distinct ids, the ids in the
committed pairs together with the skipped players form a permutation of
the input ids with no duplicates — every input player lands in exactly
one pair or exactly once among the skipped, pairs are pairwise
disjoint, and no pair contains the same player twice. -/
theorem c10_partition (om : String → List String) (ws : List PlayerRow)
    (hids : (ws.map (fun p => p.id)).Nodup) :
    ((findMatchPairs om ws).1.flatMap (fun m => [m.1, m.2]) ++
        (findMatchPairs om ws).2.map (fun p => p.id)).Perm (ws.map (fun p => p.id)) ∧
    ((findMatchPairs om ws).1.flatMap (fun m => [m.1, m.2]) ++
        (findMatchPairs om ws).2.map (fun p => p.id)).Nodup ∧
    ∀ pr ∈ (findMatchPairs om ws).1, pr.1 ≠ pr.2 := by
  have hperm := findMatchPairs_perm om ws
  have hnd := (List.Perm.nodup_iff hperm).mpr hids
  exact ⟨hperm, hnd,
    flatMap_pairs_ne _ (hnd.sublist (List.sublist_append_left _ _))⟩

/-- C10 (witness): the partition property instantiated on the concrete
pool [P1, P2, P3] with history {P1 vs P2}. -/
theorem c10_witness :
    ((ws3.map (fun p => p.id)).Nodup) ∧
    (((findMatchPairs (buildOpponentsMap hist1) ws3).1.flatMap (fun m => [m.1, m.2]) ++
        (findMatchPairs (buildOpponentsMap hist1) ws3).2.map (fun p => p.id)).Perm
        (ws3.map (fun p => p.id)) ∧
     ((findMatchPairs (buildOpponentsMap hist1) ws3).1.flatMap (fun m => [m.1, m.2]) ++
        (findMatchPairs (buildOpponentsMap hist1) ws3).2.map (fun p => p.id)).Nodup ∧
     ∀ pr ∈ (findMatchPairs (buildOpponentsMap hist1) ws3).1, pr.1 ≠ pr.2) :=
  ⟨by decide, c10_partition (buildOpponentsMap hist1) ws3 (by decide)⟩

-- =====================================================================
-- C2: global table cap
-- =====================================================================

/-- C2: a matching run never over-commits the table pool — whenever the
existing table rows (free plus occupied) fit within `maxTables` (the
invariant the table-creation and capacity-configuration code maintain),
the occupied tables plus the newly committed pairs stay within
`maxTables`; the committed pairs are the earliest-formed ones (a take
of the formed list in formation order), the pairs beyond the remaining
capacity are the latest-formed ones, and they are reported as skipped
rather than discarded (committed ++ skipped = formed).  A run that
plans nothing commits nothing. -/
theorem c2_capacity_cap (waitingPlayers : List PlayerRow)
    (opponentsMap : String → List String) (matchData : List TableRow) (maxTables : Nat)
    (hexisting : (getTableStatus matchData).1.length +
      (getTableStatus matchData).2.length ≤ maxTables) :
    ((planMatches waitingPlayers opponentsMap matchData maxTables).ok = true →
      (planMatches waitingPlayers opponentsMap matchData maxTables).usedTables.length +
        (planMatches waitingPlayers opponentsMap matchData maxTables).actualMatches.length ≤
          maxTables ∧
      (planMatches waitingPlayers opponentsMap matchData maxTables).actualMatches =
        (findMatchPairs opponentsMap waitingPlayers).1.take
          (maxTables - (planMatches waitingPlayers opponentsMap matchData maxTables).usedTables.length) ∧
      (planMatches waitingPlayers opponentsMap matchData maxTables).skippedMatches =
        (findMatchPairs opponentsMap waitingPlayers).1.drop
          (maxTables - (planMatches waitingPlayers opponentsMap matchData maxTables).usedTables.length) ∧
      (planMatches waitingPlayers opponentsMap matchData maxTables).actualMatches ++
        (planMatches waitingPlayers opponentsMap matchData maxTables).skippedMatches =
          (findMatchPairs opponentsMap waitingPlayers).1) ∧
    ((planMatches waitingPlayers opponentsMap matchData maxTables).ok = false →
      (planMatches waitingPlayers opponentsMap matchData maxTables).actualMatches = [] ∧
      (planMatches waitingPlayers opponentsMap matchData maxTables).skippedMatches = []) := by
  unfold planMatches
  by_cases h1 : waitingPlayers.length < 2
  · simp [h1]
  · simp only [if_neg h1]
    by_cases h2 : (findMatchPairs opponentsMap waitingPlayers).1 = []
    · simp [h2]
    · simp only [if_neg h2]
      constructor
      · intro _
        have hslots : (getTableStatus matchData).1.length +
            (maxTables - ((getTableStatus matchData).1.length +
              (getTableStatus matchData).2.length)) =
            maxTables - (getTableStatus matchData).2.length := by omega
        refine ⟨?_, ?_, ?_, ?_⟩
        · simp only [List.length_take]
          omega
        · simp only [hslots]
        · simp only [hslots]
        · exact List.take_append_drop _ _
      · intro hfalse
        simp at hfalse

/-- C2 (witness): with `maxTables = 2`, an empty table sheet and six
fresh waiting players, the run commits the first two formed pairs and
reports the third as skipped-for-capacity, within the cap. -/
theorem c2_witness :
    ((getTableStatus ([] : List TableRow)).1.length +
      (getTableStatus ([] : List TableRow)).2.length ≤ 2) ∧
    (((planMatches [wRow "P1", wRow "P2", wRow "P3", wRow "P4", wRow "P5", wRow "P6"]
        (buildOpponentsMap []) [] 2).ok = true →
      (planMatches [wRow "P1", wRow "P2", wRow "P3", wRow "P4", wRow "P5", wRow "P6"]
        (buildOpponentsMap []) [] 2).usedTables.length +
        (planMatches [wRow "P1", wRow "P2", wRow "P3", wRow "P4", wRow "P5", wRow "P6"]
          (buildOpponentsMap []) [] 2).actualMatches.length ≤ 2 ∧
      (planMatches [wRow "P1", wRow "P2", wRow "P3", wRow "P4", wRow "P5", wRow "P6"]
        (buildOpponentsMap []) [] 2).actualMatches =
        (findMatchPairs (buildOpponentsMap [])
          [wRow "P1", wRow "P2", wRow "P3", wRow "P4", wRow "P5", wRow "P6"]).1.take
          (2 - (planMatches [wRow "P1", wRow "P2", wRow "P3", wRow "P4", wRow "P5", wRow "P6"]
            (buildOpponentsMap []) [] 2).usedTables.length) ∧
      (planMatches [wRow "P1", wRow "P2", wRow "P3", wRow "P4", wRow "P5", wRow "P6"]
        (buildOpponentsMap []) [] 2).skippedMatches =
        (findMatchPairs (buildOpponentsMap [])
          [wRow "P1", wRow "P2", wRow "P3", wRow "P4", wRow "P5", wRow "P6"]).1.drop
          (2 - (planMatches [wRow "P1", wRow "P2", wRow "P3", wRow "P4", wRow "P5", wRow "P6"]
            (buildOpponentsMap []) [] 2).usedTables.length) ∧
      (planMatches [wRow "P1", wRow "P2", wRow "P3", wRow "P4", wRow "P5", wRow "P6"]
        (buildOpponentsMap []) [] 2).actualMatches ++
        (planMatches [wRow "P1", wRow "P2", wRow "P3", wRow "P4", wRow "P5", wRow "P6"]
          (buildOpponentsMap []) [] 2).skippedMatches =
        (findMatchPairs (buildOpponentsMap [])
          [wRow "P1", wRow "P2", wRow "P3", wRow "P4", wRow "P5", wRow "P6"]).1) ∧
     ((planMatches [wRow "P1", wRow "P2", wRow "P3", wRow "P4", wRow "P5", wRow "P6"]
        (buildOpponentsMap []) [] 2).ok = false →
      (planMatches [wRow "P1", wRow "P2", wRow "P3", wRow "P4", wRow "P5", wRow "P6"]
        (buildOpponentsMap []) [] 2).actualMatches = [] ∧
      (planMatches [wRow "P1", wRow "P2", wRow "P3", wRow "P4", wRow "P5", wRow "P6"]
        (buildOpponentsMap []) [] 2).skippedMatches = [])) :=
  ⟨by decide,
   c2_capacity_cap [wRow "P1", wRow "P2", wRow "P3", wRow "P4", wRow "P5", wRow "P6"]
     (buildOpponentsMap []) [] 2 (by decide)⟩

-- =====================================================================
-- C4: matchesPlayed = wins + losses
-- =====================================================================

/-- The at-rest counter invariant of the spec. -/
abbrev statsInvariant (ps : List PlayerRow) : Prop :=
  ∀ p ∈ ps, p.played = p.wins + p.losses

/-- A state in which the recorded winner of match T0001 has 0 wins
(the correction's floor then breaks the counter equation). -/
def c4state : State :=
  { players := [{ id := "W", name := "", wins := 0, losses := 3, played := 3, status := Status.waiting },
                { id := "L", name := "", wins := 2, losses := 1, played := 3, status := Status.waiting }],
    history := [{ matchId := "T0001", id1 := "W", id2 := "L" }],
    inProgress := [], maxTables := 3 }

/-- C4 (counterexample): correcting match T0001 in `c4state`, where the
recorded winner W has `wins = 0`, breaks `matchesPlayed = wins + losses`
(W becomes wins 0 / losses 4 / played 3, since the decrement of `wins`
is floored at 0 while `losses` is still incremented), so the claimed
preservation by `correctMatchResult` fails. -/
theorem c4_counterexample :
    statsInvariant c4state.players ∧
    correctMatchResult "T0001" c4state =
      some { players := [{ id := "W", name := "", wins := 0, losses := 4, played := 3,
                           status := Status.waiting },
                         { id := "L", name := "", wins := 3, losses := 0, played := 3,
                           status := Status.waiting }],
             history := [{ matchId := "T0001", id1 := "L", id2 := "W" }],
             inProgress := [], maxTables := 3 } ∧
    ¬statsInvariant
      [{ id := "W", name := "", wins := 0, losses := 4, played := 3, status := Status.waiting },
       { id := "L", name := "", wins := 3, losses := 0, played := 3, status := Status.waiting }] :=
  ⟨by decide, by decide, by decide⟩

theorem updatePlayerMatchStats_invariant (playerId : String) (isWinner : Bool)
    (timestamp : Int) :
    ∀ ps : List PlayerRow, statsInvariant ps →
      statsInvariant (updatePlayerMatchStats playerId isWinner timestamp ps) := by
  intro ps
  induction ps with
  | nil => intro h; exact h
  | cons row rest ih =>
    intro hinv p hp
    by_cases hid : row.id = playerId
    · simp only [updatePlayerMatchStats, if_pos hid] at hp
      rcases List.mem_cons.mp hp with rfl | hmem
      · have := hinv row (List.mem_cons_self _ _)
        cases isWinner <;> simp <;> omega
      · exact hinv p (List.mem_cons_of_mem _ hmem)
    · simp only [updatePlayerMatchStats, if_neg hid] at hp
      rcases List.mem_cons.mp hp with rfl | hmem
      · exact hinv p (List.mem_cons_self _ _)
      · exact ih (fun q hq => hinv q (List.mem_cons_of_mem _ hq)) p hmem

theorem correctMatchStats_invariant (w l : String) (ps : List PlayerRow)
    (hinv : statsInvariant ps)
    (hw : ∀ p ∈ ps, p.id = w → 1 ≤ p.wins)
    (hl : ∀ p ∈ ps, p.id = l → 1 ≤ p.losses) :
    statsInvariant (correctMatchStats w l ps) := by
  intro p hp
  obtain ⟨q, hq, rfl⟩ := List.mem_map.mp hp
  have h1 := hinv q hq
  by_cases hqw : q.id = w
  · have h2 := hw q hq hqw
    simp [if_pos hqw]
    omega
  · by_cases hql : q.id = l
    · have h2 := hl q hq hql
      simp [if_neg hqw, if_pos hql]
      omega
    · simp [if_neg hqw, if_neg hql]
      exact h1

/-- C4 (amended): `matchesPlayed = wins + losses` is preserved
unconditionally by result recording (`updatePlayerMatchStats`), and by
match correction (`correctMatchResult`) provided every row of the
recorded winner has at least one win and every row of the recorded
loser at least one loss (which is the case whenever the corrected
result is actually reflected in the counters); without that proviso the
0-floor of the compensation can leave `wins + losses` above
`matchesPlayed` (see the counterexample). -/
theorem c4_stats_invariant_preserved :
    (∀ (playerId : String) (isWinner : Bool) (timestamp : Int) (ps : List PlayerRow),
      statsInvariant ps →
      statsInvariant (updatePlayerMatchStats playerId isWinner timestamp ps)) ∧
    (∀ (matchId : String) (s : State) (m : HistRow),
      findMatchById s.history matchId = some m →
      statsInvariant s.players →
      (∀ p ∈ s.players, p.id = m.id1 → 1 ≤ p.wins) →
      (∀ p ∈ s.players, p.id = m.id2 → 1 ≤ p.losses) →
      ∀ s', correctMatchResult matchId s = some s' → statsInvariant s'.players) := by
  constructor
  · intro playerId isWinner timestamp ps h
    exact updatePlayerMatchStats_invariant playerId isWinner timestamp ps h
  · intro matchId s m hfind hinv hw hl s' hcorr
    unfold correctMatchResult at hcorr
    rw [hfind] at hcorr
    injection hcorr with hcorr
    rw [← hcorr]
    exact correctMatchStats_invariant m.id1 m.id2 s.players hinv hw hl

/-- C4 (witness): the preservation applied to a healthy concrete state
(recorded winner with 5 wins, recorded loser with 1 loss). -/
theorem c4_witness :
    (findMatchById [{ matchId := "T0001", id1 := "W", id2 := "L" }] "T0001" =
      some { matchId := "T0001", id1 := "W", id2 := "L" } ∧
     statsInvariant [{ id := "W", name := "", wins := 5, losses := 2, played := 7,
                       status := Status.waiting },
                     { id := "L", name := "", wins := 3, losses := 1, played := 4,
                       status := Status.waiting }]) ∧
    ∀ s', correctMatchResult "T0001"
        { players := [{ id := "W", name := "", wins := 5, losses := 2, played := 7,
                        status := Status.waiting },
                      { id := "L", name := "", wins := 3, losses := 1, played := 4,
                        status := Status.waiting }],
          history := [{ matchId := "T0001", id1 := "W", id2 := "L" }],
          inProgress := [], maxTables := 3 } = some s' →
      statsInvariant s'.players :=
  ⟨⟨by decide, by decide⟩,
   c4_stats_invariant_preserved.2 "T0001"
     { players := [{ id := "W", name := "", wins := 5, losses := 2, played := 7,
                     status := Status.waiting },
                   { id := "L", name := "", wins := 3, losses := 1, played := 4,
                     status := Status.waiting }],
       history := [{ matchId := "T0001", id1 := "W", id2 := "L" }],
       inProgress := [], maxTables := 3 }
     { matchId := "T0001", id1 := "W", id2 := "L" }
     (by decide) (by decide) (by decide) (by decide)⟩

-- =====================================================================
-- C5: conservation of wins + losses under correction
-- =====================================================================

/-- Sum of `wins + losses` over the rows of the two affected players. -/
def sumWinsLosses (a b : String) (ps : List PlayerRow) : Int :=
  ((ps.filter (fun p => p.id == a || p.id == b)).map (fun p => p.wins + p.losses)).sum

/-- A state in which the recorded winner of match T0001 has 0 wins and
the recorded loser 0 losses, so both floors of the correction bite. -/
def c5state : State :=
  { players := [{ id := "W", name := "", wins := 0, losses := 2, played := 2, status := Status.waiting },
                { id := "L", name := "", wins := 1, losses := 0, played := 1, status := Status.waiting }],
    history := [{ matchId := "T0001", id1 := "W", id2 := "L" }],
    inProgress := [], maxTables := 3 }

/-- C5 (counterexample): exact conservation of `wins + losses` over the
two affected players fails when a floor bites — correcting T0001 in
`c5state` (recorded winner W with 0 wins, recorded loser L with 0
losses) raises the sum from 3 to 5. -/
theorem c5_counterexample :
    sumWinsLosses "W" "L" c5state.players = 3 ∧
    correctMatchResult "T0001" c5state =
      some { players := [{ id := "W", name := "", wins := 0, losses := 3, played := 2,
                           status := Status.waiting },
                         { id := "L", name := "", wins := 2, losses := 0, played := 1,
                           status := Status.waiting }],
             history := [{ matchId := "T0001", id1 := "L", id2 := "W" }],
             inProgress := [], maxTables := 3 } ∧
    sumWinsLosses "W" "L"
      [{ id := "W", name := "", wins := 0, losses := 3, played := 2, status := Status.waiting },
       { id := "L", name := "", wins := 2, losses := 0, played := 1, status := Status.waiting }] = 5 :=
  ⟨by decide, by decide, by decide⟩

theorem sumWinsLosses_cons (w l : String) (q : PlayerRow) (rest : List PlayerRow) :
    sumWinsLosses w l (q :: rest) =
      (if q.id == w || q.id == l then q.wins + q.losses else 0) + sumWinsLosses w l rest := by
  unfold sumWinsLosses
  rw [List.filter_cons]
  by_cases hk : (q.id == w || q.id == l) = true
  · simp [hk]
  · simp [hk]

theorem correctMatchStats_cons (w l : String) (q : PlayerRow) (rest : List PlayerRow) :
    correctMatchStats w l (q :: rest) =
      (if q.id = w then { q with wins := max 0 (q.wins - 1), losses := q.losses + 1 }
       else if q.id = l then { q with wins := q.wins + 1, losses := max 0 (q.losses - 1) }
       else q) :: correctMatchStats w l rest := rfl

theorem correctMatchStats_sum (w l : String) (ps : List PlayerRow)
    (hw : ∀ p ∈ ps, p.id = w → 1 ≤ p.wins)
    (hl : ∀ p ∈ ps, p.id = l → 1 ≤ p.losses) :
    sumWinsLosses w l (correctMatchStats w l ps) = sumWinsLosses w l ps := by
  induction ps with
  | nil => rfl
  | cons q rest ih =>
    have ihr := ih (fun p hp => hw p (List.mem_cons_of_mem _ hp))
      (fun p hp => hl p (List.mem_cons_of_mem _ hp))
    rw [correctMatchStats_cons, sumWinsLosses_cons, sumWinsLosses_cons, ihr]
    by_cases hqw : q.id = w
    · have h1 := hw q (List.mem_cons_self _ _) hqw
      rw [if_pos hqw]
      show (if q.id == w || q.id == l then max 0 (q.wins - 1) + (q.losses + 1) else 0) +
          sumWinsLosses w l rest =
        (if q.id == w || q.id == l then q.wins + q.losses else 0) + sumWinsLosses w l rest
      have hbeq : (q.id == w || q.id == l) = true := by simp [hqw]
      rw [hbeq]
      have hmax : max 0 (q.wins - 1) = q.wins - 1 := max_eq_right (by omega)
      simp only [if_true]
      rw [hmax]
      omega
    · by_cases hql : q.id = l
      · have h1 := hl q (List.mem_cons_self _ _) hql
        rw [if_neg hqw, if_pos hql]
        show (if q.id == w || q.id == l then q.wins + 1 + max 0 (q.losses - 1) else 0) +
            sumWinsLosses w l rest =
          (if q.id == w || q.id == l then q.wins + q.losses else 0) + sumWinsLosses w l rest
        have hbeq : (q.id == w || q.id == l) = true := by simp [hql]
        rw [hbeq]
        have hmax : max 0 (q.losses - 1) = q.losses - 1 := max_eq_right (by omega)
        simp only [if_true]
        rw [hmax]
        omega
      · rw [if_neg hqw, if_neg hql]

/-- C5 (amended): correction of a match between recorded winner W and
recorded loser L conserves `wins + losses` summed over the two affected
players provided every W-row has at least one win and every L-row at
least one loss (the floors otherwise raise the sum, see the
counterexample); the per-row adjustments are exactly W: wins max(0,·−1),
losses +1 and L: wins +1, losses max(0,·−1) — which yields Scenario E
(W wins 5 → 4, losses +1; L wins 3 → 4, losses −1 floored at 0). -/
theorem c5_correction_conserves (matchId : String) (s : State) (m : HistRow)
    (hfind : findMatchById s.history matchId = some m)
    (hw : ∀ p ∈ s.players, p.id = m.id1 → 1 ≤ p.wins)
    (hl : ∀ p ∈ s.players, p.id = m.id2 → 1 ≤ p.losses) :
    ∀ s', correctMatchResult matchId s = some s' →
      sumWinsLosses m.id1 m.id2 s'.players = sumWinsLosses m.id1 m.id2 s.players ∧
      List.Forall₂
        (fun p p' =>
          p'.id = p.id ∧ p'.played = p.played ∧ p'.status = p.status ∧
          (p.id = m.id1 →
            p'.wins = max 0 (p.wins - 1) ∧ p'.losses = p.losses + 1) ∧
          (p.id ≠ m.id1 → p.id = m.id2 →
            p'.wins = p.wins + 1 ∧ p'.losses = max 0 (p.losses - 1)) ∧
          (p.id ≠ m.id1 → p.id ≠ m.id2 → p' = p))
        s.players s'.players := by
  intro s' hcorr
  unfold correctMatchResult at hcorr
  rw [hfind] at hcorr
  injection hcorr with hcorr
  have hplayers : s'.players = correctMatchStats m.id1 m.id2 s.players := by
    rw [← hcorr]
  constructor
  · rw [hplayers]
    exact correctMatchStats_sum m.id1 m.id2 s.players hw hl
  · rw [hplayers]
    clear hcorr hplayers hfind hw hl
    induction s.players with
    | nil => exact List.Forall₂.nil
    | cons q rest ih =>
      rw [correctMatchStats_cons]
      refine List.Forall₂.cons ?_ ih
      by_cases hqw : q.id = m.id1
      · rw [if_pos hqw]
        exact ⟨rfl, rfl, rfl, fun _ => ⟨rfl, rfl⟩,
          fun hne _ => absurd hqw hne, fun hne _ => absurd hqw hne⟩
      · by_cases hql : q.id = m.id2
        · rw [if_neg hqw, if_pos hql]
          exact ⟨rfl, rfl, rfl, fun heq => absurd heq hqw,
            fun _ _ => ⟨rfl, rfl⟩, fun _ hne => absurd hql hne⟩
        · rw [if_neg hqw, if_neg hql]
          exact ⟨rfl, rfl, rfl, fun heq => absurd heq hqw,
            fun _ heq => absurd heq hql, fun _ _ => rfl⟩

/-- Scenario E state: winner W (wins 5) recorded against loser L
(wins 3, losses 1) in match T0001. -/
def scenE : State :=
  { players := [{ id := "W", name := "", wins := 5, losses := 2, played := 7,
                  status := Status.waiting },
                { id := "L", name := "", wins := 3, losses := 1, played := 4,
                  status := Status.waiting }],
    history := [{ matchId := "T0001", id1 := "W", id2 := "L" }],
    inProgress := [], maxTables := 3 }

/-- C5 (witness): Scenario E — correcting the match of winner W
(wins 5) against loser L (wins 3, losses 1) conserves the sum and
yields W.wins 4 / W.losses +1 and L.wins 4 / L.losses −1. -/
theorem c5_witness :
    (findMatchById scenE.history "T0001" =
        some { matchId := "T0001", id1 := "W", id2 := "L" } ∧
     (∀ p ∈ scenE.players, p.id = "W" → 1 ≤ p.wins) ∧
     (∀ p ∈ scenE.players, p.id = "L" → 1 ≤ p.losses)) ∧
    ∀ s', correctMatchResult "T0001" scenE = some s' →
      sumWinsLosses "W" "L" s'.players = sumWinsLosses "W" "L" scenE.players ∧
      List.Forall₂
        (fun p p' =>
          p'.id = p.id ∧ p'.played = p.played ∧ p'.status = p.status ∧
          (p.id = "W" →
            p'.wins = max 0 (p.wins - 1) ∧ p'.losses = p.losses + 1) ∧
          (p.id ≠ "W" → p.id = "L" →
            p'.wins = p.wins + 1 ∧ p'.losses = max 0 (p.losses - 1)) ∧
          (p.id ≠ "W" → p.id ≠ "L" → p' = p))
        scenE.players s'.players :=
  ⟨⟨by decide, by decide, by decide⟩,
   c5_correction_conserves "T0001" scenE { matchId := "T0001", id1 := "W", id2 := "L" }
     (by decide) (by decide) (by decide)⟩

-- =====================================================================
-- C6: DataConsistencyError aborts without mutation
-- =====================================================================

theorem findOpponentRow_eq_none (t : String) :
    ∀ rows : List TableRow, (∀ r ∈ rows, r.id1 ≠ t ∧ r.id2 ≠ t) →
      findOpponentRow t rows = none := by
  intro rows
  induction rows with
  | nil => intro _; rfl
  | cons r rest ih =>
    intro h
    have hr := h r (List.mem_cons_self _ _)
    simp only [findOpponentRow, if_neg hr.1, if_neg hr.2]
    rw [ih (fun q hq => h q (List.mem_cons_of_mem _ hq))]
    rfl

/-- C6: when the target player's current status is 対戦中 but no
in-progress row contains their id, `updatePlayerState` aborts with the
data-consistency failure (success = false, the データ不整合 message) and
the whole spreadsheet state is returned unchanged — no history append,
no statistics update, no status change, no table-slot mutation. -/
theorem c6_data_consistency_abort (opts : UpsOptions) (now : Int) (s : State)
    (target : PlayerRow)
    (hfind : s.players.find? (fun row => row.id == opts.targetPlayerId) = some target)
    (hstat : target.status = Status.inProgress)
    (hnone : ∀ r ∈ s.inProgress, r.id1 ≠ opts.targetPlayerId ∧ r.id2 ≠ opts.targetPlayerId) :
    updatePlayerState opts now s =
      (⟨false, msgInconsistent opts.targetPlayerId, none⟩, s) := by
  unfold updatePlayerState
  rw [hfind]
  have hnd : ¬target.status = Status.dropped := by rw [hstat]; intro hc; cases hc
  dsimp only
  rw [if_neg hnd, if_pos hstat, findOpponentRow_eq_none _ _ hnone]

/-- A state whose only player P1 is 対戦中 while the single in-progress
row is vacant: the broken invariant of C6. -/
def c6state : State :=
  { players := [{ id := "P1", name := "", wins := 0, losses := 0, played := 0,
                  status := Status.inProgress }],
    history := [], inProgress := [{ tableNumber := 1 }], maxTables := 3 }

/-- C6 (witness): the abort applied to the concrete broken state. -/
theorem c6_witness :
    (c6state.players.find? (fun row => row.id == "P1") =
        some { id := "P1", name := "", wins := 0, losses := 0, played := 0,
               status := Status.inProgress } ∧
     (∀ r ∈ c6state.inProgress, r.id1 ≠ "P1" ∧ r.id2 ≠ "P1")) ∧
    updatePlayerState
        { targetPlayerId := "P1", newStatus := Status.waiting,
          opponentNewStatus := Status.waiting } 100 c6state =
      (⟨false, msgInconsistent "P1", none⟩, c6state) :=
  ⟨⟨by decide, by decide⟩,
   c6_data_consistency_abort
     { targetPlayerId := "P1", newStatus := Status.waiting,
       opponentNewStatus := Status.waiting } 100 c6state
     { id := "P1", name := "", wins := 0, losses := 0, played := 0,
       status := Status.inProgress }
     (by decide) (by decide) (by decide)⟩

-- =====================================================================
-- C3: failures leave the state untouched
-- =====================================================================

theorem upsCommit_fail_unchanged (opts : UpsOptions) (now : Int) (s : State)
    (b : Bool) (o : Option String) (mrow : Option Nat) (r : UpsResult) (s' : State)
    (heq : upsCommit opts now s b o mrow = (r, s'))
    (hfail : r.success = false) : s' = s := by
  simp only [upsCommit] at heq
  split at heq
  · cases heq; rfl
  · cases heq
    simp at hfail

/-- C3: `updatePlayerState` is all-or-nothing — every call that reports
failure (success = false; the source converts every thrown exception
into such a result) returns the spreadsheet state exactly as it was:
player statuses, match history, player statistics and in-progress table
slots are all unchanged. -/
theorem c3_failure_atomic (opts : UpsOptions) (now : Int) (s : State)
    (r : UpsResult) (s' : State)
    (hrun : updatePlayerState opts now s = (r, s'))
    (hfail : r.success = false) : s' = s := by
  simp only [updatePlayerState] at hrun
  split at hrun
  · cases hrun; rfl
  · split at hrun
    · cases hrun; rfl
    · split at hrun
      · split at hrun
        · cases hrun; rfl
        · split at hrun
          · cases hrun; rfl
          · split at hrun
            · cases hrun; rfl
            · exact upsCommit_fail_unchanged _ _ _ _ _ _ _ _ hrun hfail
      · exact upsCommit_fail_unchanged _ _ _ _ _ _ _ _ hrun hfail

/-- A state with P1 対戦中 against P2 whose in-progress row has an empty
start-time cell: recording a result throws before any write. -/
def c3state : State :=
  { players := [{ id := "P1", name := "", wins := 0, losses := 0, played := 0,
                  status := Status.inProgress },
                { id := "P2", name := "", wins := 0, losses := 0, played := 0,
                  status := Status.inProgress }],
    history := [],
    inProgress := [{ tableNumber := 1, id1 := "P1", name1 := "", id2 := "P2", name2 := "" }],
    maxTables := 3 }

/-- C3 (witness): recording a result on `c3state` fails (the start-time
cell is not a date, so the elapsed-time computation throws after the
target lookup) and the state comes back untouched. -/
theorem c3_witness :
    (updatePlayerState
        { targetPlayerId := "P1", newStatus := Status.waiting,
          opponentNewStatus := Status.waiting, recordResult := true,
          isTargetWinner := true } 100 c3state =
      (⟨false, "エラーが発生しました。", none⟩, c3state) ∧
     (⟨false, "エラーが発生しました。", none⟩ : UpsResult).success = false) ∧
    c3state = c3state :=
  ⟨⟨by decide, by decide⟩,
   c3_failure_atomic
     { targetPlayerId := "P1", newStatus := Status.waiting,
       opponentNewStatus := Status.waiting, recordResult := true,
       isTargetWinner := true } 100 c3state
     ⟨false, "エラーが発生しました。", none⟩ c3state
     (by decide) (by decide)⟩

-- =====================================================================
-- C9: table allocation preference order
-- =====================================================================

theorem mem_insertSet {x y : Int} {s : List Int} :
    y ∈ insertSet x s ↔ y ∈ s ∨ y = x := by
  unfold insertSet
  by_cases hx : x ∈ s
  · simp only [if_pos hx]
    constructor
    · exact Or.inl
    · rintro (h | rfl)
      · exact h
      · exact hx
  · simp [if_neg hx]

theorem mem_usedNumbers {rows : List TableRow} {n : Int} :
    (n ∈ rows.foldl
      (fun s r => if r.tableNumber = 0 then s else insertSet r.tableNumber s) []) ↔
    ∃ r ∈ rows, r.tableNumber ≠ 0 ∧ r.tableNumber = n := by
  have aux : ∀ (l : List TableRow) (acc : List Int),
      (n ∈ l.foldl
        (fun s r => if r.tableNumber = 0 then s else insertSet r.tableNumber s) acc) ↔
      n ∈ acc ∨ ∃ r ∈ l, r.tableNumber ≠ 0 ∧ r.tableNumber = n := by
    intro l
    induction l with
    | nil => intro acc; simp
    | cons r rest ih =>
      intro acc
      simp only [List.foldl_cons]
      rw [ih]
      by_cases hz : r.tableNumber = 0
      · simp only [if_pos hz]
        constructor
        · rintro (h | ⟨q, hq, hprop⟩)
          · exact Or.inl h
          · exact Or.inr ⟨q, List.mem_cons_of_mem _ hq, hprop⟩
        · rintro (h | ⟨q, hq, hprop⟩)
          · exact Or.inl h
          · rcases List.mem_cons.mp hq with rfl | hmem
            · exact absurd hz hprop.1
            · exact Or.inr ⟨q, hmem, hprop⟩
      · simp only [if_neg hz, mem_insertSet]
        constructor
        · rintro ((h | rfl) | ⟨q, hq, hprop⟩)
          · exact Or.inl h
          · exact Or.inr ⟨r, List.mem_cons_self _ _, hz, rfl⟩
          · exact Or.inr ⟨q, List.mem_cons_of_mem _ hq, hprop⟩
        · rintro (h | ⟨q, hq, hprop⟩)
          · exact Or.inl (Or.inl h)
          · rcases List.mem_cons.mp hq with rfl | hmem
            · exact Or.inl (Or.inr hprop.2.symm)
            · exact Or.inr ⟨q, hmem, hprop⟩
  rw [aux]
  simp

theorem find?_int_range_some {p : Int → Bool} :
    ∀ (k : Nat) (start : Int) (n : Int),
      ((List.range k).map (fun (i : Nat) => (i : Int) + start)).find? p = some n →
      p n = true ∧ start ≤ n ∧ n < start + k ∧
        ∀ m : Int, start ≤ m → m < n → p m = false := by
  intro k
  induction k with
  | zero => intro start n h; simp [List.range_zero] at h
  | succ k ih =>
    intro start n h
    rw [List.range_succ_eq_map, List.map_cons, List.map_map] at h
    have hmap : (List.range k).map ((fun (i : Nat) => (i : Int) + start) ∘ Nat.succ) =
        (List.range k).map (fun (i : Nat) => (i : Int) + (start + 1)) := by
      apply List.map_congr_left
      intro i _
      simp [Function.comp]
      omega
    rw [hmap] at h
    simp only [Nat.cast_zero, zero_add] at h
    rw [List.find?_cons] at h
    by_cases hp : p start
    · rw [hp] at h
      have h2 : some start = some n := h
      injection h2 with h2
      subst h2
      refine ⟨hp, le_refl _, by omega, ?_⟩
      intro m hm1 hm2
      omega
    · have hpf : p start = false := by
        cases hb : p start
        · rfl
        · exact absurd hb hp
      rw [hpf] at h
      have h5 : ((List.range k).map (fun (i : Nat) => (i : Int) + (start + 1))).find? p =
          some n := h
      obtain ⟨h1, h2, h3, h4⟩ := ih (start + 1) n h5
      refine ⟨h1, by omega, by push_cast at h3 ⊢; omega, ?_⟩
      intro m hm1 hm2
      rcases eq_or_lt_of_le hm1 with rfl | hlt
      · simpa using hp
      · exact h4 m (by omega) hm2

theorem find?_int_range_none {p : Int → Bool} :
    ∀ (k : Nat) (start : Int),
      ((List.range k).map (fun (i : Nat) => (i : Int) + start)).find? p = none ↔
      ∀ m : Int, start ≤ m → m < start + k → p m = false := by
  intro k
  induction k with
  | zero => intro start; simp [List.range_zero]; intro m h1 h2; omega
  | succ k ih =>
    intro start
    rw [List.range_succ_eq_map, List.map_cons, List.map_map]
    have hmap : (List.range k).map ((fun (i : Nat) => (i : Int) + start) ∘ Nat.succ) =
        (List.range k).map (fun (i : Nat) => (i : Int) + (start + 1)) := by
      apply List.map_congr_left
      intro i _
      simp [Function.comp]
      omega
    rw [hmap]
    simp only [Nat.cast_zero, zero_add, List.find?_cons]
    by_cases hp : p start
    · rw [hp]
      constructor
      · intro h; cases h
      · intro h
        have := h start (le_refl _) (by omega)
        rw [hp] at this
        cases this
    · have hpf : p start = false := by
        cases hb : p start
        · rfl
        · exact absurd hb hp
      rw [hpf]
      have hrec := ih (start + 1)
      constructor
      · intro h m hm1 hm2
        rcases eq_or_lt_of_le hm1 with rfl | hlt
        · exact hpf
        · exact hrec.mp h m (by omega) (by push_cast at hm2 ⊢; omega)
      · intro h
        exact hrec.mpr (fun m hm1 hm2 => h m (by omega) (by push_cast at hm2 ⊢; omega))

/-- The spec-side reuse condition of C9: the candidate last-used table
exists, lies within [1, maxTables], and is currently free (not taken
this run and still among the free table rows). -/
def reusableSpec (st : AllocState) (maxTables : Nat) : Option Int → Prop
  | none => False
  | some t =>
    1 ≤ t ∧ t ≤ (maxTables : Int) ∧ t ∉ st.used ∧
      t ∈ st.avail.map (fun a => a.tableNumber)

theorem reusableSpec_iff (st : AllocState) (maxTables : Nat) (t? : Option Int) :
    reusableSpec st maxTables t? ↔ isTableAvailableForReuse st maxTables t? = true := by
  cases t? with
  | none => simp [reusableSpec, isTableAvailableForReuse]
  | some t =>
    unfold reusableSpec isTableAvailableForReuse
    dsimp only
    by_cases h0 : t = 0
    · subst h0
      simp
    · rw [if_neg h0]
      by_cases hv : validateTableNumber t maxTables = true
      · rw [hv]
        simp only [Bool.not_true, Bool.false_eq_true, if_false]
        by_cases hc : t ∈ st.used
        · simp only [if_pos hc]
          simp only [validateTableNumber, MIN_TABLE_NUMBER, decide_eq_true_eq] at hv
          constructor
          · rintro ⟨_, _, hnc, _⟩
            exact absurd hc hnc
          · intro h
            cases h
        · simp only [if_neg hc]
          simp only [validateTableNumber, MIN_TABLE_NUMBER, decide_eq_true_eq] at hv
          rw [List.any_eq_true]
          constructor
          · rintro ⟨_, _, _, hmem⟩
            obtain ⟨a, ha, haeq⟩ := List.mem_map.mp hmem
            exact ⟨a, ha, by simp [haeq]⟩
          · rintro ⟨a, ha, haeq⟩
            rw [beq_iff_eq] at haeq
            exact ⟨hv.1, hv.2, hc, List.mem_map.mpr ⟨a, ha, haeq⟩⟩
      · have hvf : validateTableNumber t maxTables = false := by
          cases hb : validateTableNumber t maxTables
          · rfl
          · exact absurd hb hv
        rw [hvf]
        simp only [Bool.not_false, if_true]
        simp only [validateTableNumber, MIN_TABLE_NUMBER, decide_eq_true_eq] at hv
        push_neg at hv
        constructor
        · rintro ⟨h1, h2, _, _⟩
          have := hv h1
          omega
        · intro h
          cases h

theorem tryReuse_of_spec {st : AllocState} {maxTables : Nat} {t : Int}
    (hspec : reusableSpec st maxTables (some t)) :
    ∃ row rest, extractFirst (fun a => a.tableNumber == t) st.avail = some (row, rest) ∧
      row.tableNumber = t ∧
      tryReuse st maxTables (some t) =
        some (row.row, row.tableNumber,
          { st with avail := rest, used := insertSet row.tableNumber st.used }) := by
  have hb := (reusableSpec_iff st maxTables (some t)).mp hspec
  have hany : st.avail.any (fun a => a.tableNumber == t) = true := by
    obtain ⟨_, _, _, hmem⟩ := hspec
    rw [List.any_eq_true]
    obtain ⟨a, ha, haeq⟩ := List.mem_map.mp hmem
    exact ⟨a, ha, by simp [haeq]⟩
  obtain ⟨x, xs, hx⟩ := extractFirst_of_any hany
  have hxt : x.tableNumber = t := by
    have := extractFirst_pred hx
    rwa [beq_iff_eq] at this
  refine ⟨x, xs, hx, hxt, ?_⟩
  unfold tryReuse
  rw [if_pos hb]
  dsimp only
  rw [hx]

theorem tryReuse_of_not_spec {st : AllocState} {maxTables : Nat} {t? : Option Int}
    (hnspec : ¬reusableSpec st maxTables t?) :
    tryReuse st maxTables t? = none := by
  have hb : isTableAvailableForReuse st maxTables t? = false := by
    cases hb2 : isTableAvailableForReuse st maxTables t?
    · rfl
    · exact absurd ((reusableSpec_iff st maxTables t?).mpr hb2) hnspec
  unfold tryReuse
  simp [hb]

/-- C9: for every accepted pair, the allocation loop of
`writeMatchResults` follows the claimed preference order.  With the free
table array sorted ascending by table number (which holds on reachable
sheets, since fresh tables are always created with the lowest unused
number and appended): (a) the winner-lineage player's last used table is
taken whenever it is in [1, maxTables] and currently free; (b) otherwise
the other player's last table under the same condition; (c) otherwise
the lowest-numbered free table; (d) otherwise the lowest table number in
[1, maxTables] not present on any sheet row, and the allocation fails
(the pair cannot be committed) exactly when every number in
[1, maxTables] is already on the sheet; and (e) pairs beyond the
capacity computed by `planMatches` are reported in `skippedMatches`
rather than committed or discarded. -/
theorem c9_table_allocation (historyData : List HistRow) (maxTables : Nat)
    (p1Id p2Id : String) (st : AllocState)
    (hsorted : st.avail.Pairwise (fun a b => a.tableNumber ≤ b.tableNumber)) :
    (∀ t, getLastTableNumber historyData p1Id = some t →
      reusableSpec st maxTables (some t) →
      ∃ res, allocateTable historyData maxTables p1Id p2Id st = some res ∧ res.2.1 = t) ∧
    (¬reusableSpec st maxTables (getLastTableNumber historyData p1Id) →
      ∀ t, getLastTableNumber historyData p2Id = some t →
      reusableSpec st maxTables (some t) →
      ∃ res, allocateTable historyData maxTables p1Id p2Id st = some res ∧ res.2.1 = t) ∧
    (¬reusableSpec st maxTables (getLastTableNumber historyData p1Id) →
      ¬reusableSpec st maxTables (getLastTableNumber historyData p2Id) →
      st.avail ≠ [] →
      ∃ res, allocateTable historyData maxTables p1Id p2Id st = some res ∧
        res.2.1 ∈ st.avail.map (fun a => a.tableNumber) ∧
        ∀ a ∈ st.avail, res.2.1 ≤ a.tableNumber) ∧
    (¬reusableSpec st maxTables (getLastTableNumber historyData p1Id) →
      ¬reusableSpec st maxTables (getLastTableNumber historyData p2Id) →
      st.avail = [] →
      (∀ res, allocateTable historyData maxTables p1Id p2Id st = some res →
        1 ≤ res.2.1 ∧ res.2.1 ≤ (maxTables : Int) ∧
        (∀ r ∈ st.rows, r.tableNumber ≠ res.2.1) ∧
        (∀ m : Int, 1 ≤ m → m < res.2.1 → ∃ r ∈ st.rows, r.tableNumber = m)) ∧
      (allocateTable historyData maxTables p1Id p2Id st = none ↔
        ∀ m : Int, 1 ≤ m → m ≤ (maxTables : Int) → ∃ r ∈ st.rows, r.tableNumber = m)) ∧
    (∀ (waitingPlayers : List PlayerRow) (om : String → List String)
        (matchData : List TableRow),
      (planMatches waitingPlayers om matchData maxTables).ok = true →
      (planMatches waitingPlayers om matchData maxTables).actualMatches ++
        (planMatches waitingPlayers om matchData maxTables).skippedMatches =
        (findMatchPairs om waitingPlayers).1) := by
  refine ⟨?_, ?_, ?_, ?_, ?_⟩
  · intro t hlast hspec
    obtain ⟨row, rest, hx, hxt, htr⟩ := tryReuse_of_spec hspec
    simp only [allocateTable]
    rw [hlast, htr]
    exact ⟨_, rfl, hxt⟩
  · intro hn1 t hlast hspec
    obtain ⟨row, rest, hx, hxt, htr⟩ := tryReuse_of_spec hspec
    simp only [allocateTable]
    rw [tryReuse_of_not_spec hn1, hlast, htr]
    exact ⟨_, rfl, hxt⟩
  · intro hn1 hn2 hne
    rcases hav : st.avail with _ | ⟨a, rest⟩
    · exact absurd hav hne
    · simp only [allocateTable]
      rw [tryReuse_of_not_spec hn1, tryReuse_of_not_spec hn2, hav]
      refine ⟨_, rfl, ?_, ?_⟩
      · exact List.mem_map.mpr ⟨a, List.mem_cons_self _ _, rfl⟩
      · intro b hb
        rw [hav] at hsorted
        have hpw := List.pairwise_cons.mp hsorted
        rcases List.mem_cons.mp hb with rfl | hmem
        · exact le_refl _
        · exact hpw.1 b hmem
  · intro hn1 hn2 hav
    simp only [allocateTable]
    rw [tryReuse_of_not_spec hn1, tryReuse_of_not_spec hn2, hav]
    have hmemUsed : ∀ m : Int,
        ((st.rows.foldl
          (fun s r => if r.tableNumber = 0 then s else insertSet r.tableNumber s) []).contains m
            = true) ↔
          ∃ r ∈ st.rows, r.tableNumber ≠ 0 ∧ r.tableNumber = m := by
      intro m
      rw [List.contains, List.elem_iff]
      exact mem_usedNumbers
    constructor
    · intro res hres
      rcases hnext : getNextAvailableTableNumber st.rows maxTables with _ | n
      · rw [hnext] at hres
        cases hres
      · rw [hnext] at hres
        injection hres with hres2
        subst hres2
        dsimp only
        unfold getNextAvailableTableNumber at hnext
        obtain ⟨hp, h1, h2, hmin⟩ := find?_int_range_some maxTables 1 n hnext
        have hnotmem : ¬∃ r ∈ st.rows, r.tableNumber ≠ 0 ∧ r.tableNumber = n := by
          intro hc
          rw [← hmemUsed n] at hc
          rw [Bool.not_eq_true'] at hp
          rw [hp] at hc
          cases hc
        refine ⟨h1, by omega, ?_, ?_⟩
        · intro r hr hc
          exact hnotmem ⟨r, hr, by omega, hc⟩
        · intro m hm1 hm2
          have hpm := hmin m hm1 hm2
          rw [Bool.not_eq_false'] at hpm
          obtain ⟨r, hr, _, hrm⟩ := (hmemUsed m).mp hpm
          exact ⟨r, hr, hrm⟩
    · rcases hnext : getNextAvailableTableNumber st.rows maxTables with _ | n
      · constructor
        · intro _
          unfold getNextAvailableTableNumber at hnext
          have hall := (find?_int_range_none maxTables 1).mp hnext
          intro m hm1 hm2
          have hpm := hall m hm1 (by omega)
          rw [Bool.not_eq_false'] at hpm
          obtain ⟨r, hr, _, hrm⟩ := (hmemUsed m).mp hpm
          exact ⟨r, hr, hrm⟩
        · intro _
          rfl
      · constructor
        · intro hc
          exact Option.noConfusion hc
        · intro hall
          unfold getNextAvailableTableNumber at hnext
          obtain ⟨hp, h1, h2, _⟩ := find?_int_range_some maxTables 1 n hnext
          obtain ⟨r, hr, hrm⟩ := hall n h1 (by omega)
          rw [Bool.not_eq_true'] at hp
          have : (st.rows.foldl
              (fun s r => if r.tableNumber = 0 then s else insertSet r.tableNumber s)
                []).contains n = true :=
            (hmemUsed n).mpr ⟨r, hr, by omega, hrm⟩
          rw [hp] at this
          cases this
  · intro waitingPlayers om matchData hok
    unfold planMatches at hok ⊢
    by_cases h1 : waitingPlayers.length < 2
    · simp [h1] at hok
    · simp only [if_neg h1] at hok ⊢
      by_cases h2 : (findMatchPairs om waitingPlayers).1 = []
      · simp [h2] at hok
      · simp only [if_neg h2]
        exact List.take_append_drop _ _

/-- Concrete allocation state for the C9 witness: free tables 1 and 2
(in ascending row order), nothing taken this run, two sheet rows. -/
def st9 : AllocState :=
  { avail := [⟨1, 1⟩, ⟨2, 2⟩], used := [],
    rows := [{ tableNumber := 1 }, { tableNumber := 2 }] }

/-- Concrete history for the C9 witness: P1 won a decided match on
table 2. -/
def hist9 : List HistRow :=
  [{ matchId := "T0001", tableNumber := 2, id1 := "P1", id2 := "P2",
     duration := "00:10:00" }]

/-- C9 (witness): the allocation preference order instantiated on the
concrete state `st9` / history `hist9`. -/
theorem c9_witness :
    st9.avail.Pairwise (fun a b => a.tableNumber ≤ b.tableNumber) ∧
    ((∀ t, getLastTableNumber hist9 "P1" = some t →
      reusableSpec st9 3 (some t) →
      ∃ res, allocateTable hist9 3 "P1" "P2" st9 = some res ∧ res.2.1 = t) ∧
    (¬reusableSpec st9 3 (getLastTableNumber hist9 "P1") →
      ∀ t, getLastTableNumber hist9 "P2" = some t →
      reusableSpec st9 3 (some t) →
      ∃ res, allocateTable hist9 3 "P1" "P2" st9 = some res ∧ res.2.1 = t) ∧
    (¬reusableSpec st9 3 (getLastTableNumber hist9 "P1") →
      ¬reusableSpec st9 3 (getLastTableNumber hist9 "P2") →
      st9.avail ≠ [] →
      ∃ res, allocateTable hist9 3 "P1" "P2" st9 = some res ∧
        res.2.1 ∈ st9.avail.map (fun a => a.tableNumber) ∧
        ∀ a ∈ st9.avail, res.2.1 ≤ a.tableNumber) ∧
    (¬reusableSpec st9 3 (getLastTableNumber hist9 "P1") →
      ¬reusableSpec st9 3 (getLastTableNumber hist9 "P2") →
      st9.avail = [] →
      (∀ res, allocateTable hist9 3 "P1" "P2" st9 = some res →
        1 ≤ res.2.1 ∧ res.2.1 ≤ (3 : Int) ∧
        (∀ r ∈ st9.rows, r.tableNumber ≠ res.2.1) ∧
        (∀ m : Int, 1 ≤ m → m < res.2.1 → ∃ r ∈ st9.rows, r.tableNumber = m)) ∧
      (allocateTable hist9 3 "P1" "P2" st9 = none ↔
        ∀ m : Int, 1 ≤ m → m ≤ (3 : Int) → ∃ r ∈ st9.rows, r.tableNumber = m)) ∧
    (∀ (waitingPlayers : List PlayerRow) (om : String → List String)
        (matchData : List TableRow),
      (planMatches waitingPlayers om matchData 3).ok = true →
      (planMatches waitingPlayers om matchData 3).actualMatches ++
        (planMatches waitingPlayers om matchData 3).skippedMatches =
        (findMatchPairs om waitingPlayers).1)) :=
  ⟨by decide, c9_table_allocation hist9 3 "P1" "P2" st9 (by decide)⟩

end Gunslinger
